import Mathlib

/-!
# Shift management service

A shallow embedding of the data/service layer of `src/backend/server.js`: the two
SQLite tables created by `initDatabase` and the ten Express route handlers working on
them.

Modelling conventions.

* A text value that may be missing is an `Option String`: `none` stands for a
  JavaScript `undefined`/`null` in a request and for SQL `NULL` in a column.
* Record ids are natural numbers; `employee_id` is an optional integer.
* The database is a pair of row lists (in rowid order) together with the two
  `sqlite_sequence` counters kept for `AUTOINCREMENT` columns.
* A handler is a function from the database and the decoded request to the new
  database and the response (status code and JSON body). A statement that fails
  with a constraint violation leaves the database as it was and takes the handler
  into its `if (err)` branch; I/O faults of the storage engine are not modelled.
* `created_at` is filled from the clock reading `now` passed to the two inserts.
-/

namespace ShiftManagement

/-! ## Values -/

/-- JavaScript truthiness of a value that is absent or a text: `if (x)` holds exactly
for a non-empty text. -/
def truthy : Option String → Bool
  | none => false
  | some t => decide (t ≠ "")

/-- Bytewise (`BINARY` collation) comparison of two texts, on their code points. -/
def charsLe : List Char → List Char → Bool
  | [], _ => true
  | _ :: _, [] => false
  | a :: as, b :: bs =>
    decide (a.toNat < b.toNat) || (decide (a.toNat = b.toNat) && charsLe as bs)

/-- Ascending order of SQLite on a nullable text column: `NULL` sorts first, texts are
compared bytewise. -/
def sqlLe : Option String → Option String → Bool
  | none, _ => true
  | some _, none => false
  | some a, some b => charsLe a.data b.data

/-- Strict version of `sqlLe`. -/
def sqlLt (a b : Option String) : Bool := !sqlLe b a

/-! ## Tables -/

/-- Row of table `employees`. -/
structure Employee where
  id : Nat
  name : Option String
  role : Option String
  email : Option String
  phone : Option String
  created_at : Option String
deriving DecidableEq, Repr

/-- Row of table `shifts`. -/
structure Shift where
  id : Nat
  date : Option String
  start_time : Option String
  end_time : Option String
  position : Option String
  employee_id : Option Int
  notes : Option String
  created_at : Option String
deriving DecidableEq, Repr

/-- Result row of `SELECT shifts.*, employees.name as employee_name`. -/
structure ShiftRow where
  shift : Shift
  employee_name : Option String
deriving DecidableEq, Repr

/-- The database file `shifts.db`: both tables and their `AUTOINCREMENT` counters. -/
structure Store where
  employees : List Employee
  shifts : List Shift
  employees_seq : Nat
  shifts_seq : Nat
deriving DecidableEq, Repr

/-- A database file that does not exist yet. -/
def Store.empty : Store := ⟨[], [], 0, 0⟩

/-- Both `CREATE TABLE IF NOT EXISTS` statements: a fresh file gets two empty tables,
an existing one is left as it is. -/
def initDatabase : Option Store → Store
  | none => Store.empty
  | some db => db

/-- Uniqueness of `id INTEGER PRIMARY KEY` in both tables. -/
def Store.PrimaryKeys (db : Store) : Prop :=
  (db.employees.map Employee.id).Nodup ∧ (db.shifts.map Shift.id).Nodup

instance (db : Store) : Decidable db.PrimaryKeys := by
  unfold Store.PrimaryKeys; infer_instance

/-! ## Responses -/

/-- JSON body of a response. -/
inductive Body where
  | employees (rows : List Employee)
  | employee (row : Employee)
  | employeeFields (id : Nat) (name role email phone : Option String)
  | shifts (rows : List ShiftRow)
  | shift (row : ShiftRow)
  | shiftFields (id : Nat) (date start_time end_time position : Option String)
      (employee_id : Option Int) (notes : Option String)
  | deleted (message : String) (id : Nat)
  | error (error : String)
deriving DecidableEq, Repr

/-- Status code and body, as sent by `res.status(..).json(..)` (`res.json` alone sends
status 200). -/
structure Response where
  status : Nat
  body : Body
deriving DecidableEq, Repr

/-! ## SQL statements -/

/-- Largest rowid of a table, 0 when it is empty. -/
def maxRowid (ids : List Nat) : Nat := ids.foldr max 0

/-- Rowid chosen by an `AUTOINCREMENT` insert: one more than the largest rowid the
table has ever held. -/
def nextRowid (seq : Nat) (ids : List Nat) : Nat := max seq (maxRowid ids) + 1

/-- Message of a failed `NOT NULL` constraint. -/
def notNullFailed (column : String) : String :=
  "SQLITE_CONSTRAINT: NOT NULL constraint failed: " ++ column

/-- Statement `INSERT INTO employees (name, role, email, phone) VALUES (?, ?, ?, ?)`:
the new database and `this.lastID`, or the error message. -/
def insertEmployee (db : Store) (name role email phone : Option String) (now : String) :
    Except String (Store × Nat) :=
  if name.isNone then .error (notNullFailed "employees.name")
  else if role.isNone then .error (notNullFailed "employees.role")
  else
    let id := nextRowid db.employees_seq (db.employees.map Employee.id)
    .ok ({ db with
            employees := db.employees ++ [⟨id, name, role, email, phone, some now⟩],
            employees_seq := id }, id)

/-- Statement `UPDATE employees SET name = ?, role = ?, email = ?, phone = ? WHERE id = ?`:
the new database and `this.changes`, or the error message. -/
def updateEmployeeRows (db : Store) (id : Nat) (name role email phone : Option String) :
    Except String (Store × Nat) :=
  let changes := (db.employees.filter (fun e => e.id == id)).length
  if changes = 0 then .ok (db, 0)
  else if name.isNone then .error (notNullFailed "employees.name")
  else if role.isNone then .error (notNullFailed "employees.role")
  else
    .ok ({ db with
            employees := db.employees.map (fun e =>
              if e.id == id then { e with name := name, role := role, email := email,
                                          phone := phone }
              else e) }, changes)

/-- Statement `DELETE FROM employees WHERE id = ?`: the new database and
`this.changes`. Foreign keys are not enforced (SQLite default), so table `shifts` is
not consulted. -/
def deleteEmployeeRows (db : Store) (id : Nat) : Store × Nat :=
  ({ db with employees := db.employees.filter (fun e => !(e.id == id)) },
   (db.employees.filter (fun e => e.id == id)).length)

/-- Statement `INSERT INTO shifts (date, start_time, end_time, position, employee_id,
notes) VALUES (?, ?, ?, ?, ?, ?)`. -/
def insertShift (db : Store) (date start_time end_time position : Option String)
    (employee_id : Option Int) (notes : Option String) (now : String) :
    Except String (Store × Nat) :=
  if date.isNone then .error (notNullFailed "shifts.date")
  else if start_time.isNone then .error (notNullFailed "shifts.start_time")
  else if end_time.isNone then .error (notNullFailed "shifts.end_time")
  else if position.isNone then .error (notNullFailed "shifts.position")
  else
    let id := nextRowid db.shifts_seq (db.shifts.map Shift.id)
    .ok ({ db with
            shifts := db.shifts ++
              [⟨id, date, start_time, end_time, position, employee_id, notes, some now⟩],
            shifts_seq := id }, id)

/-- Statement `UPDATE shifts SET date = ?, start_time = ?, end_time = ?, position = ?,
employee_id = ?, notes = ? WHERE id = ?`. -/
def updateShiftRows (db : Store) (id : Nat) (date start_time end_time position : Option String)
    (employee_id : Option Int) (notes : Option String) : Except String (Store × Nat) :=
  let changes := (db.shifts.filter (fun s => s.id == id)).length
  if changes = 0 then .ok (db, 0)
  else if date.isNone then .error (notNullFailed "shifts.date")
  else if start_time.isNone then .error (notNullFailed "shifts.start_time")
  else if end_time.isNone then .error (notNullFailed "shifts.end_time")
  else if position.isNone then .error (notNullFailed "shifts.position")
  else
    .ok ({ db with
            shifts := db.shifts.map (fun s =>
              if s.id == id then { s with date := date, start_time := start_time,
                                          end_time := end_time, position := position,
                                          employee_id := employee_id, notes := notes }
              else s) }, changes)

/-- Statement `DELETE FROM shifts WHERE id = ?`. -/
def deleteShiftRows (db : Store) (id : Nat) : Store × Nat :=
  ({ db with shifts := db.shifts.filter (fun s => !(s.id == id)) },
   (db.shifts.filter (fun s => s.id == id)).length)

/-- Rows of `shifts LEFT JOIN employees ON shifts.employee_id = employees.id`: one row
per matching employee, and one row with a `NULL` name for a shift without a match. -/
def leftJoin (shifts : List Shift) (employees : List Employee) : List ShiftRow :=
  shifts.flatMap (fun s =>
    match employees.filter (fun e => s.employee_id == some (e.id : Int)) with
    | [] => [⟨s, none⟩]
    | m :: ms => (m :: ms).map (fun e => ⟨s, e.name⟩))

/-- Comparison of `ORDER BY shifts.date, shifts.start_time`. -/
def orderLe (a b : ShiftRow) : Bool :=
  if sqlLt a.shift.date b.shift.date then true
  else if sqlLt b.shift.date a.shift.date then false
  else sqlLe a.shift.start_time b.shift.start_time

/-- Text of the query parameter `employee_id`, by what it denotes: the empty text of
`?employee_id=`, or a non-empty text that denotes an integer. -/
inductive IdText where
  | empty
  | integer (n : Int)
deriving DecidableEq, Repr

/-- Query parameters of `GET /api/shifts`. A query value is a text: `none` is a
parameter that is missing, `some ""` and `some .empty` one that is given with an empty
text. -/
structure Filter where
  date : Option String
  employee_id : Option IdText
deriving DecidableEq, Repr

/-- JavaScript truthiness of the `employee_id` query value: `if (employee_id)` holds
exactly for a non-empty text, the text `0` included. -/
def idTruthy : Option IdText → Bool
  | some (.integer _) => true
  | some .empty => false
  | none => false

/-- Comparison `shifts.employee_id = ?` of the stored value with the bound query text;
`NULL` equals nothing. -/
def idEquals (stored : Option Int) : Option IdText → Bool
  | some (.integer n) => stored == some n
  | some .empty => false
  | none => false

/-- The `WHERE` clause the handler appends to the query, as a predicate on joined
rows: `if (date) .. else if (employee_id) ..`. -/
def whereClause (f : Filter) (r : ShiftRow) : Bool :=
  if truthy f.date then r.shift.date == f.date
  else if idTruthy f.employee_id then idEquals r.shift.employee_id f.employee_id
  else true

/-- Rows produced by the query of `GET /api/shifts`. -/
def selectShifts (db : Store) (f : Filter) : List ShiftRow :=
  List.insertionSort (fun a b => orderLe a b = true)
    ((leftJoin db.shifts db.employees).filter (whereClause f))

/-! ## Route handlers -/

/-- Handler `app.get('/api/employees')`: `SELECT * FROM employees ORDER BY name`. -/
def listEmployees (db : Store) : Store × Response :=
  (db, ⟨200, .employees
    (List.insertionSort (fun a b : Employee => sqlLe a.name b.name = true) db.employees)⟩)

/-- Handler `app.get('/api/employees/:id')`. -/
def getEmployee (db : Store) (id : Nat) : Store × Response :=
  match (db.employees.filter (fun e => e.id == id)).head? with
  | none => (db, ⟨404, .error "Employee not found"⟩)
  | some row => (db, ⟨200, .employee row⟩)

/-- Handler `app.post('/api/employees')`. -/
def createEmployee (db : Store) (name role email phone : Option String) (now : String) :
    Store × Response :=
  if !truthy name || !truthy role then
    (db, ⟨400, .error "Name and role are required"⟩)
  else
    match insertEmployee db name role email phone now with
    | .error msg => (db, ⟨500, .error msg⟩)
    | .ok (db', lastID) => (db', ⟨200, .employeeFields lastID name role email phone⟩)

/-- Handler `app.put('/api/employees/:id')`. -/
def updateEmployee (db : Store) (id : Nat) (name role email phone : Option String) :
    Store × Response :=
  match updateEmployeeRows db id name role email phone with
  | .error msg => (db, ⟨500, .error msg⟩)
  | .ok (db', changes) =>
    if changes = 0 then (db', ⟨404, .error "Employee not found"⟩)
    else (db', ⟨200, .employeeFields id name role email phone⟩)

/-- Handler `app.delete('/api/employees/:id')`. -/
def deleteEmployee (db : Store) (id : Nat) : Store × Response :=
  match deleteEmployeeRows db id with
  | (db', changes) =>
    if changes = 0 then (db', ⟨404, .error "Employee not found"⟩)
    else (db', ⟨200, .deleted "Employee deleted" id⟩)

/-- Handler `app.get('/api/shifts')`. -/
def listShifts (db : Store) (f : Filter) : Store × Response :=
  (db, ⟨200, .shifts (selectShifts db f)⟩)

/-- Handler `app.get('/api/shifts/:id')`. -/
def getShift (db : Store) (id : Nat) : Store × Response :=
  match ((leftJoin db.shifts db.employees).filter (fun r => r.shift.id == id)).head? with
  | none => (db, ⟨404, .error "Shift not found"⟩)
  | some row => (db, ⟨200, .shift row⟩)

/-- Handler `app.post('/api/shifts')`. -/
def createShift (db : Store) (date start_time end_time position : Option String)
    (employee_id : Option Int) (notes : Option String) (now : String) : Store × Response :=
  if !truthy date || !truthy start_time || !truthy end_time || !truthy position then
    (db, ⟨400, .error "Date, start_time, end_time, and position are required"⟩)
  else
    match insertShift db date start_time end_time position employee_id notes now with
    | .error msg => (db, ⟨500, .error msg⟩)
    | .ok (db', lastID) =>
      (db', ⟨200, .shiftFields lastID date start_time end_time position employee_id notes⟩)

/-- Handler `app.put('/api/shifts/:id')`. -/
def updateShift (db : Store) (id : Nat) (date start_time end_time position : Option String)
    (employee_id : Option Int) (notes : Option String) : Store × Response :=
  match updateShiftRows db id date start_time end_time position employee_id notes with
  | .error msg => (db, ⟨500, .error msg⟩)
  | .ok (db', changes) =>
    if changes = 0 then (db', ⟨404, .error "Shift not found"⟩)
    else (db', ⟨200, .shiftFields id date start_time end_time position employee_id notes⟩)

/-- Handler `app.delete('/api/shifts/:id')`. -/
def deleteShift (db : Store) (id : Nat) : Store × Response :=
  match deleteShiftRows db id with
  | (db', changes) =>
    if changes = 0 then (db', ⟨404, .error "Shift not found"⟩)
    else (db', ⟨200, .deleted "Shift deleted" id⟩)

/-! ## Request sequences -/

/-- One request to the API. -/
inductive Op where
  | listEmployees
  | getEmployee (id : Nat)
  | createEmployee (name role email phone : Option String) (now : String)
  | updateEmployee (id : Nat) (name role email phone : Option String)
  | deleteEmployee (id : Nat)
  | listShifts (f : Filter)
  | getShift (id : Nat)
  | createShift (date start_time end_time position : Option String)
      (employee_id : Option Int) (notes : Option String) (now : String)
  | updateShift (id : Nat) (date start_time end_time position : Option String)
      (employee_id : Option Int) (notes : Option String)
  | deleteShift (id : Nat)
deriving DecidableEq, Repr

/-- Route dispatch: the handler bound to the request. -/
def step (db : Store) : Op → Store × Response
  | .listEmployees => listEmployees db
  | .getEmployee id => getEmployee db id
  | .createEmployee name role email phone now => createEmployee db name role email phone now
  | .updateEmployee id name role email phone => updateEmployee db id name role email phone
  | .deleteEmployee id => deleteEmployee db id
  | .listShifts f => listShifts db f
  | .getShift id => getShift db id
  | .createShift d st en p e n now => createShift db d st en p e n now
  | .updateShift id d st en p e n => updateShift db id d st en p e n
  | .deleteShift id => deleteShift db id

/-- Requests served one after the other: the final database and the log of requests
with their responses. -/
def run (db : Store) : List Op → Store × List (Op × Response)
  | [] => (db, [])
  | op :: ops =>
    let r := step db op
    let rest := run r.1 ops
    (rest.1, (op, r.2) :: rest.2)

/-- Id handed out by a log entry, when it is a successful `createEmployee`. -/
def assignedEmployeeId : Op × Response → Option Nat
  | (.createEmployee _ _ _ _ _, ⟨_, .employeeFields id _ _ _ _⟩) => some id
  | _ => none

/-- Id handed out by a log entry, when it is a successful `createShift`. -/
def assignedShiftId : Op × Response → Option Nat
  | (.createShift _ _ _ _ _ _ _, ⟨_, .shiftFields id _ _ _ _ _ _⟩) => some id
  | _ => none

/-- Ids handed out by the successful `createEmployee` requests of a log, in order. -/
def assignedEmployeeIds (log : List (Op × Response)) : List Nat :=
  log.filterMap assignedEmployeeId

/-- Ids handed out by the successful `createShift` requests of a log, in order. -/
def assignedShiftIds (log : List (Op × Response)) : List Nat :=
  log.filterMap assignedShiftId

/-! ## Required columns -/

/-- The `NOT NULL` columns of both tables hold a value in every row. -/
def Store.RequiredPresent (db : Store) : Prop :=
  (∀ e ∈ db.employees, e.name ≠ none ∧ e.role ≠ none) ∧
  (∀ s ∈ db.shifts, s.date ≠ none ∧ s.start_time ≠ none ∧ s.end_time ≠ none ∧
    s.position ≠ none)

/-- The `NOT NULL` columns of both tables hold a non-empty text in every row. -/
def Store.RequiredNonEmpty (db : Store) : Prop :=
  (∀ e ∈ db.employees, truthy e.name = true ∧ truthy e.role = true) ∧
  (∀ s ∈ db.shifts, truthy s.date = true ∧ truthy s.start_time = true ∧
    truthy s.end_time = true ∧ truthy s.position = true)

/-- An update request that carries an empty text for a required column. -/
def writesEmptyText : Op → Bool
  | .updateEmployee _ name role _ _ => name == some "" || role == some ""
  | .updateShift _ date start_time end_time position _ _ =>
    date == some "" || start_time == some "" || end_time == some "" || position == some ""
  | _ => false

/-! ## Sample data -/

/-- Sample database: employees 1 and 2, a shift on 2024-01-01 assigned to employee 1
and a shift on 2024-01-02 assigned to employee 2. -/
def sampleStore : Store :=
  { employees :=
      [⟨1, some "Ann", some "Manager", some "ann@example.com", none,
          some "2024-01-01 08:00:00"⟩,
       ⟨2, some "Bob", some "Cook", none, none, some "2024-01-01 08:05:00"⟩],
    shifts :=
      [⟨1, some "2024-01-01", some "09:00", some "17:00", some "Manager", some 1, none,
          some "2024-01-01 08:10:00"⟩,
       ⟨2, some "2024-01-02", some "10:00", some "18:00", some "Cook", some 2, none,
          some "2024-01-01 08:15:00"⟩],
    employees_seq := 2,
    shifts_seq := 2 }

/-! ## Ordering lemmas -/

theorem charsLe_total (a b : List Char) : charsLe a b = true ∨ charsLe b a = true := by
  induction a generalizing b with
  | nil => left; simp [charsLe]
  | cons x xs ih =>
    cases b with
    | nil => right; simp [charsLe]
    | cons y ys =>
      simp only [charsLe, Bool.or_eq_true, Bool.and_eq_true, decide_eq_true_eq]
      rcases Nat.lt_trichotomy x.toNat y.toNat with h | h | h
      · exact Or.inl (Or.inl h)
      · rcases ih ys with h1 | h1
        · exact Or.inl (Or.inr ⟨h, h1⟩)
        · exact Or.inr (Or.inr ⟨h.symm, h1⟩)
      · exact Or.inr (Or.inl h)

theorem charsLe_trans (a b c : List Char) (hab : charsLe a b = true)
    (hbc : charsLe b c = true) : charsLe a c = true := by
  induction a generalizing b c with
  | nil => simp [charsLe]
  | cons x xs ih =>
    cases b with
    | nil => simp [charsLe] at hab
    | cons y ys =>
      cases c with
      | nil => simp [charsLe] at hbc
      | cons z zs =>
        simp only [charsLe, Bool.or_eq_true, Bool.and_eq_true, decide_eq_true_eq] at hab hbc ⊢
        rcases hab with h1 | ⟨h1, h2⟩
        · rcases hbc with h3 | ⟨h3, _⟩
          · exact Or.inl (by omega)
          · exact Or.inl (by omega)
        · rcases hbc with h3 | ⟨h3, h4⟩
          · exact Or.inl (by omega)
          · exact Or.inr ⟨by omega, ih ys zs h2 h4⟩

theorem charsLe_antisymm (a b : List Char) (hab : charsLe a b = true)
    (hba : charsLe b a = true) : a = b := by
  induction a generalizing b with
  | nil =>
    cases b with
    | nil => rfl
    | cons y ys => simp [charsLe] at hba
  | cons x xs ih =>
    cases b with
    | nil => simp [charsLe] at hab
    | cons y ys =>
      simp only [charsLe, Bool.or_eq_true, Bool.and_eq_true, decide_eq_true_eq] at hab hba
      rcases hab with h1 | ⟨h1, h2⟩
      · rcases hba with h3 | ⟨h3, _⟩ <;> omega
      · rcases hba with h3 | ⟨_, h4⟩
        · omega
        · have hx : x = y := Char.ext (UInt32.toNat.inj h1)
          rw [hx, ih ys h2 h4]

theorem sqlLe_total (a b : Option String) : sqlLe a b = true ∨ sqlLe b a = true := by
  cases a with
  | none => left; rfl
  | some x =>
    cases b with
    | none => right; rfl
    | some y => exact charsLe_total x.data y.data

theorem sqlLe_trans (a b c : Option String) (hab : sqlLe a b = true)
    (hbc : sqlLe b c = true) : sqlLe a c = true := by
  cases a with
  | none => rfl
  | some x =>
    cases b with
    | none => simp [sqlLe] at hab
    | some y =>
      cases c with
      | none => simp [sqlLe] at hbc
      | some z => exact charsLe_trans x.data y.data z.data hab hbc

theorem sqlLe_antisymm (a b : Option String) (hab : sqlLe a b = true)
    (hba : sqlLe b a = true) : a = b := by
  cases a with
  | none =>
    cases b with
    | none => rfl
    | some y => simp [sqlLe] at hba
  | some x =>
    cases b with
    | none => simp [sqlLe] at hab
    | some y =>
      have h := charsLe_antisymm x.data y.data hab hba
      have hxy : x = y := String.ext h
      rw [hxy]

theorem sqlLe_refl (a : Option String) : sqlLe a a = true := by
  rcases sqlLe_total a a with h | h <;> exact h

theorem orderLe_total (a b : ShiftRow) : orderLe a b = true ∨ orderLe b a = true := by
  unfold orderLe sqlLt
  rcases sqlLe_total a.shift.date b.shift.date with h | h <;>
    rcases sqlLe_total a.shift.start_time b.shift.start_time with h1 | h1 <;>
    cases h2 : sqlLe a.shift.date b.shift.date <;>
    cases h3 : sqlLe b.shift.date a.shift.date <;>
    simp_all

theorem orderLe_trans (a b c : ShiftRow) (hab : orderLe a b = true)
    (hbc : orderLe b c = true) : orderLe a c = true := by
  unfold orderLe sqlLt at *
  have t1 := sqlLe_trans a.shift.date b.shift.date c.shift.date
  have t2 := sqlLe_trans b.shift.date c.shift.date a.shift.date
  have t3 := sqlLe_trans c.shift.date a.shift.date b.shift.date
  have t4 := sqlLe_trans a.shift.start_time b.shift.start_time c.shift.start_time
  have t5 := sqlLe_total a.shift.date b.shift.date
  have t6 := sqlLe_total b.shift.date c.shift.date
  cases h1 : sqlLe a.shift.date b.shift.date <;>
    cases h2 : sqlLe b.shift.date a.shift.date <;>
    cases h3 : sqlLe b.shift.date c.shift.date <;>
    cases h4 : sqlLe c.shift.date b.shift.date <;>
    cases h5 : sqlLe a.shift.date c.shift.date <;>
    cases h6 : sqlLe c.shift.date a.shift.date <;>
    simp_all

/-- What `orderLe` means: earlier date, or same date and start time not later. -/
theorem orderLe_iff (a b : ShiftRow) :
    orderLe a b = true ↔
      sqlLt a.shift.date b.shift.date = true ∨
        (a.shift.date = b.shift.date ∧
          sqlLe a.shift.start_time b.shift.start_time = true) := by
  unfold orderLe sqlLt
  constructor
  · intro h
    cases h1 : sqlLe b.shift.date a.shift.date
    · left; rfl
    · right
      cases h2 : sqlLe a.shift.date b.shift.date
      · simp [h1, h2] at h
      · simp [h1, h2] at h
        exact ⟨sqlLe_antisymm _ _ h2 h1, h⟩
  · rintro (h | ⟨h1, h2⟩)
    · simp [h]
    · rw [h1]; simp [sqlLe_refl, h2]

/-! ## Validation and inserts -/

theorem truthy_eq_false_iff (x : Option String) :
    truthy x = false ↔ x = none ∨ x = some "" := by
  cases x with
  | none => simp [truthy]
  | some t => simp [truthy]

theorem truthy_eq_true_iff (x : Option String) :
    truthy x = true ↔ ∃ t, x = some t ∧ t ≠ "" := by
  cases x with
  | none => simp [truthy]
  | some t => simp [truthy]

theorem createEmployee_invalid (db : Store) (name role email phone : Option String)
    (now : String) (h : truthy name = false ∨ truthy role = false) :
    createEmployee db name role email phone now =
      (db, ⟨400, .error "Name and role are required"⟩) := by
  unfold createEmployee
  rcases h with h | h <;> simp [h]

theorem createEmployee_valid (db : Store) (name role email phone : Option String)
    (now : String) (hn : truthy name = true) (hr : truthy role = true) :
    createEmployee db name role email phone now =
      ({ db with
          employees := db.employees ++
            [⟨nextRowid db.employees_seq (db.employees.map Employee.id),
              name, role, email, phone, some now⟩],
          employees_seq := nextRowid db.employees_seq (db.employees.map Employee.id) },
       ⟨200, .employeeFields (nextRowid db.employees_seq (db.employees.map Employee.id))
          name role email phone⟩) := by
  obtain ⟨n, rfl, _⟩ := (truthy_eq_true_iff name).1 hn
  obtain ⟨r, rfl, _⟩ := (truthy_eq_true_iff role).1 hr
  simp [createEmployee, hn, hr, insertEmployee]

theorem createShift_invalid (db : Store) (date start_time end_time position : Option String)
    (employee_id : Option Int) (notes : Option String) (now : String)
    (h : truthy date = false ∨ truthy start_time = false ∨ truthy end_time = false ∨
      truthy position = false) :
    createShift db date start_time end_time position employee_id notes now =
      (db, ⟨400, .error "Date, start_time, end_time, and position are required"⟩) := by
  unfold createShift
  rcases h with h | h | h | h <;> simp [h]

theorem createShift_valid (db : Store) (date start_time end_time position : Option String)
    (employee_id : Option Int) (notes : Option String) (now : String)
    (hd : truthy date = true) (hs : truthy start_time = true) (he : truthy end_time = true)
    (hp : truthy position = true) :
    createShift db date start_time end_time position employee_id notes now =
      ({ db with
          shifts := db.shifts ++
            [⟨nextRowid db.shifts_seq (db.shifts.map Shift.id),
              date, start_time, end_time, position, employee_id, notes, some now⟩],
          shifts_seq := nextRowid db.shifts_seq (db.shifts.map Shift.id) },
       ⟨200, .shiftFields (nextRowid db.shifts_seq (db.shifts.map Shift.id))
          date start_time end_time position employee_id notes⟩) := by
  obtain ⟨d, rfl, _⟩ := (truthy_eq_true_iff date).1 hd
  obtain ⟨s, rfl, _⟩ := (truthy_eq_true_iff start_time).1 hs
  obtain ⟨e, rfl, _⟩ := (truthy_eq_true_iff end_time).1 he
  obtain ⟨q, rfl, _⟩ := (truthy_eq_true_iff position).1 hp
  simp [createShift, hd, hs, he, hp, insertShift]

/-- C3: `createEmployee` answers 400 exactly when `name` or `role` is empty or absent,
`createShift` answers 400 exactly when one of `date`, `start_time`, `end_time`,
`position` is empty or absent, and a request answered with 400 leaves the database
as it was. -/
theorem create_rejects_exactly_missing_required (db : Store)
    (name role email phone : Option String)
    (date start_time end_time position : Option String) (employee_id : Option Int)
    (notes : Option String) (now : String) :
    ((createEmployee db name role email phone now).2.status = 400 ↔
        ((name = none ∨ name = some "") ∨ (role = none ∨ role = some ""))) ∧
    ((createShift db date start_time end_time position employee_id notes now).2.status = 400 ↔
        ((date = none ∨ date = some "") ∨ (start_time = none ∨ start_time = some "") ∨
          (end_time = none ∨ end_time = some "") ∨ (position = none ∨ position = some ""))) ∧
    ((createEmployee db name role email phone now).2.status = 400 →
        (createEmployee db name role email phone now).1 = db) ∧
    ((createShift db date start_time end_time position employee_id notes now).2.status = 400 →
        (createShift db date start_time end_time position employee_id notes now).1 = db) := by
  have hE : (createEmployee db name role email phone now).2.status = 400 ↔
      (truthy name = false ∨ truthy role = false) := by
    constructor
    · intro h
      by_contra hc
      push_neg at hc
      simp only [Bool.not_eq_false] at hc
      rw [createEmployee_valid db name role email phone now hc.1 hc.2] at h
      simp at h
    · intro h
      rw [createEmployee_invalid db name role email phone now h]
  have hS : (createShift db date start_time end_time position employee_id notes now).2.status
        = 400 ↔
      (truthy date = false ∨ truthy start_time = false ∨ truthy end_time = false ∨
        truthy position = false) := by
    constructor
    · intro h
      by_contra hc
      push_neg at hc
      simp only [Bool.not_eq_false] at hc
      rw [createShift_valid db date start_time end_time position employee_id notes now
        hc.1 hc.2.1 hc.2.2.1 hc.2.2.2] at h
      simp at h
    · intro h
      rw [createShift_invalid db date start_time end_time position employee_id notes now h]
  refine ⟨?_, ?_, ?_, ?_⟩
  · rw [hE, truthy_eq_false_iff, truthy_eq_false_iff]
  · rw [hS, truthy_eq_false_iff, truthy_eq_false_iff, truthy_eq_false_iff,
      truthy_eq_false_iff]
  · intro h
    rw [createEmployee_invalid db name role email phone now (hE.1 h)]
  · intro h
    rw [createShift_invalid db date start_time end_time position employee_id notes now
      (hS.1 h)]

/-! ## Lookups by id -/

theorem filter_key_eq_nil {α : Type} (key : α → Nat) (l : List α) (id : Nat)
    (h : ∀ x ∈ l, key x ≠ id) : l.filter (fun x => key x == id) = [] := by
  rw [List.filter_eq_nil_iff]
  intro x hx
  simpa using h x hx

theorem filter_key_ne_self {α : Type} (key : α → Nat) (l : List α) (id : Nat)
    (h : ∀ x ∈ l, key x ≠ id) : l.filter (fun x => !(key x == id)) = l := by
  rw [List.filter_eq_self]
  intro x hx
  simpa using h x hx

theorem filter_key_ne_nil {α : Type} (key : α → Nat) (l : List α) (id : Nat)
    (h : ∃ x ∈ l, key x = id) : l.filter (fun x => key x == id) ≠ [] := by
  obtain ⟨x, hx, hk⟩ := h
  intro hc
  rw [List.filter_eq_nil_iff] at hc
  exact hc x hx (by simpa using hk)

theorem filter_key_length_ne_zero {α : Type} (key : α → Nat) (l : List α) (id : Nat)
    (h : ∃ x ∈ l, key x = id) : (l.filter (fun x => key x == id)).length ≠ 0 := by
  intro hc
  exact filter_key_ne_nil key l id h (List.length_eq_zero.1 hc)

/-- With unique keys, the rows selected by a key are the single row carrying it. -/
theorem filter_key_of_nodup {α : Type} (key : α → Nat) (l : List α) (x : α)
    (hx : x ∈ l) (hn : (l.map key).Nodup) : l.filter (fun y => key y == key x) = [x] := by
  induction l with
  | nil => simp at hx
  | cons a t ih =>
    rw [List.map_cons, List.nodup_cons] at hn
    rcases List.mem_cons.1 hx with rfl | hxt
    · have ht : t.filter (fun y => key y == key x) = [] := by
        apply filter_key_eq_nil
        intro y hy hk
        exact hn.1 (hk ▸ List.mem_map_of_mem key hy)
      simp [List.filter_cons, ht]
    · have hne : key a ≠ key x := by
        intro hk
        exact hn.1 (hk ▸ List.mem_map_of_mem key hxt)
      simp [List.filter_cons, hne, ih hxt hn.2]

/-! ## The join -/

/-- Rows the join produces for one shift. -/
theorem leftJoin_cons (s : Shift) (ss : List Shift) (es : List Employee) :
    leftJoin (s :: ss) es = leftJoin [s] es ++ leftJoin ss es := by
  simp [leftJoin, List.flatMap_cons]

theorem leftJoin_nil (es : List Employee) : leftJoin [] es = [] := rfl

/-- Every row the join produces for one shift carries that shift. -/
theorem leftJoin_single_shift (s : Shift) (es : List Employee) :
    ∀ r ∈ leftJoin [s] es, r.shift = s := by
  intro r hr
  simp only [leftJoin, List.flatMap_cons, List.flatMap_nil, List.append_nil] at hr
  split at hr
  · simp at hr; rw [hr]
  · simp only [List.mem_map] at hr
    obtain ⟨e, _, rfl⟩ := hr
    rfl

theorem leftJoin_single_ne_nil (s : Shift) (es : List Employee) : leftJoin [s] es ≠ [] := by
  simp only [leftJoin, List.flatMap_cons, List.flatMap_nil, List.append_nil]
  split <;> simp

/-- A shift without a matching employee gives one row with a `NULL` name. -/
theorem leftJoin_single_unmatched (s : Shift) (es : List Employee)
    (h : ∀ e ∈ es, s.employee_id ≠ some (e.id : Int)) : leftJoin [s] es = [⟨s, none⟩] := by
  have hf : es.filter (fun e => s.employee_id == some (e.id : Int)) = [] := by
    rw [List.filter_eq_nil_iff]
    intro e he
    simpa using h e he
  simp [leftJoin, hf]

/-- With unique employee ids the join produces exactly one row per shift. -/
theorem leftJoin_single_of_nodup (s : Shift) (es : List Employee)
    (hn : (es.map Employee.id).Nodup) : ∃ n, leftJoin [s] es = [⟨s, n⟩] := by
  by_cases h : ∀ e ∈ es, s.employee_id ≠ some (e.id : Int)
  · exact ⟨none, leftJoin_single_unmatched s es h⟩
  · push_neg at h
    obtain ⟨e, he, hid⟩ := h
    have hf : es.filter (fun x => s.employee_id == some (x.id : Int)) = [e] := by
      have h1 := filter_key_of_nodup Employee.id es e he hn
      have h2 : es.filter (fun x => s.employee_id == some (x.id : Int)) =
          es.filter (fun y => y.id == e.id) := by
        apply List.filter_congr
        intro x _
        rw [hid]
        by_cases hx : x.id = e.id
        · simp [hx]
        · have hx2 : ¬ ((e.id : Int) = (x.id : Int)) := by omega
          simp [hx, hx2]
      rw [h2, h1]
    exact ⟨e.name, by simp [leftJoin, hf]⟩

theorem leftJoin_map_shift_of_nodup (ss : List Shift) (es : List Employee)
    (hn : (es.map Employee.id).Nodup) : (leftJoin ss es).map ShiftRow.shift = ss := by
  induction ss with
  | nil => rfl
  | cons s t ih =>
    obtain ⟨n, h1⟩ := leftJoin_single_of_nodup s es hn
    rw [leftJoin_cons, List.map_append, ih, h1]
    rfl

theorem mem_leftJoin_shift (ss : List Shift) (es : List Employee) :
    ∀ r ∈ leftJoin ss es, r.shift ∈ ss := by
  induction ss with
  | nil => intro r hr; simp [leftJoin_nil] at hr
  | cons s t ih =>
    intro r hr
    rw [leftJoin_cons, List.mem_append] at hr
    rcases hr with hr | hr
    · rw [leftJoin_single_shift s es r hr]; exact List.mem_cons_self _ _
    · exact List.mem_cons_of_mem _ (ih r hr)

theorem exists_leftJoin_of_mem (ss : List Shift) (es : List Employee) (s : Shift)
    (hs : s ∈ ss) : ∃ r ∈ leftJoin ss es, r.shift = s := by
  induction ss with
  | nil => simp at hs
  | cons a t ih =>
    rw [leftJoin_cons]
    rcases List.mem_cons.1 hs with rfl | hst
    · cases hj : leftJoin [s] es with
      | nil => exact absurd hj (leftJoin_single_ne_nil s es)
      | cons r rs =>
        refine ⟨r, by simp, ?_⟩
        exact leftJoin_single_shift s es r (by rw [hj]; exact List.mem_cons_self _ _)
    · obtain ⟨r, hr, hrs⟩ := ih hst
      exact ⟨r, List.mem_append_right _ hr, hrs⟩

/-! ## Handlers on a missing id -/

theorem getEmployee_missing (db : Store) (id : Nat) (h : ∀ e ∈ db.employees, e.id ≠ id) :
    getEmployee db id = (db, ⟨404, .error "Employee not found"⟩) := by
  simp [getEmployee, filter_key_eq_nil Employee.id db.employees id h]

theorem updateEmployee_missing (db : Store) (id : Nat) (name role email phone : Option String)
    (h : ∀ e ∈ db.employees, e.id ≠ id) :
    updateEmployee db id name role email phone =
      (db, ⟨404, .error "Employee not found"⟩) := by
  simp [updateEmployee, updateEmployeeRows, filter_key_eq_nil Employee.id db.employees id h]

theorem deleteEmployee_missing (db : Store) (id : Nat) (h : ∀ e ∈ db.employees, e.id ≠ id) :
    deleteEmployee db id = (db, ⟨404, .error "Employee not found"⟩) := by
  simp [deleteEmployee, deleteEmployeeRows, filter_key_eq_nil Employee.id db.employees id h,
    filter_key_ne_self Employee.id db.employees id h]

theorem getShift_missing (db : Store) (id : Nat) (h : ∀ s ∈ db.shifts, s.id ≠ id) :
    getShift db id = (db, ⟨404, .error "Shift not found"⟩) := by
  have hf : (leftJoin db.shifts db.employees).filter (fun r => r.shift.id == id) = [] := by
    rw [List.filter_eq_nil_iff]
    intro r hr
    simpa using h r.shift (mem_leftJoin_shift db.shifts db.employees r hr)
  simp [getShift, hf]

theorem updateShift_missing (db : Store) (id : Nat)
    (date start_time end_time position : Option String) (employee_id : Option Int)
    (notes : Option String) (h : ∀ s ∈ db.shifts, s.id ≠ id) :
    updateShift db id date start_time end_time position employee_id notes =
      (db, ⟨404, .error "Shift not found"⟩) := by
  simp [updateShift, updateShiftRows, filter_key_eq_nil Shift.id db.shifts id h]

theorem deleteShift_missing (db : Store) (id : Nat) (h : ∀ s ∈ db.shifts, s.id ≠ id) :
    deleteShift db id = (db, ⟨404, .error "Shift not found"⟩) := by
  simp [deleteShift, deleteShiftRows, filter_key_eq_nil Shift.id db.shifts id h,
    filter_key_ne_self Shift.id db.shifts id h]

/-! ## Handlers on an existing id -/

theorem getEmployee_existing (db : Store) (id : Nat) (h : ∃ e ∈ db.employees, e.id = id) :
    ∃ row, row ∈ db.employees ∧ row.id = id ∧ getEmployee db id = (db, ⟨200, .employee row⟩) := by
  cases hf : db.employees.filter (fun e => e.id == id) with
  | nil => exact absurd hf (filter_key_ne_nil Employee.id db.employees id h)
  | cons row rest =>
    have hm : row ∈ db.employees.filter (fun e => e.id == id) := by
      rw [hf]; exact List.mem_cons_self _ _
    rw [List.mem_filter] at hm
    exact ⟨row, hm.1, by simpa using hm.2, by simp [getEmployee, hf]⟩

theorem getShift_existing (db : Store) (id : Nat) (h : ∃ s ∈ db.shifts, s.id = id) :
    ∃ row, row.shift ∈ db.shifts ∧ row.shift.id = id ∧
      getShift db id = (db, ⟨200, .shift row⟩) := by
  obtain ⟨s, hs, hid⟩ := h
  obtain ⟨r, hr, hrs⟩ := exists_leftJoin_of_mem db.shifts db.employees s hs
  cases hf : (leftJoin db.shifts db.employees).filter (fun r => r.shift.id == id) with
  | nil =>
    rw [List.filter_eq_nil_iff] at hf
    exact absurd (by simp [hrs, hid]) (hf r hr)
  | cons row rest =>
    have hm : row ∈ (leftJoin db.shifts db.employees).filter (fun r => r.shift.id == id) := by
      rw [hf]; exact List.mem_cons_self _ _
    rw [List.mem_filter] at hm
    exact ⟨row, mem_leftJoin_shift _ _ row hm.1, by simpa using hm.2, by simp [getShift, hf]⟩

theorem deleteEmployee_existing (db : Store) (id : Nat) (h : ∃ e ∈ db.employees, e.id = id) :
    deleteEmployee db id =
      ({ db with employees := db.employees.filter (fun e => !(e.id == id)) },
       ⟨200, .deleted "Employee deleted" id⟩) := by
  simp [deleteEmployee, deleteEmployeeRows,
    filter_key_length_ne_zero Employee.id db.employees id h]

theorem deleteShift_existing (db : Store) (id : Nat) (h : ∃ s ∈ db.shifts, s.id = id) :
    deleteShift db id =
      ({ db with shifts := db.shifts.filter (fun s => !(s.id == id)) },
       ⟨200, .deleted "Shift deleted" id⟩) := by
  simp [deleteShift, deleteShiftRows, filter_key_length_ne_zero Shift.id db.shifts id h]

/-- An update of an existing employee is answered 200 when `name` and `role` are given
and 500 when the `NOT NULL` constraint of one of them fails. -/
theorem updateEmployee_existing (db : Store) (id : Nat) (name role email phone : Option String)
    (h : ∃ e ∈ db.employees, e.id = id) :
    (name.isSome = true → role.isSome = true →
      updateEmployee db id name role email phone =
        ({ db with employees := db.employees.map (fun e =>
              if e.id == id then { e with name := name, role := role, email := email,
                                          phone := phone }
              else e) },
         ⟨200, .employeeFields id name role email phone⟩)) ∧
    ((name = none ∨ role = none) →
      (updateEmployee db id name role email phone).1 = db ∧
      (updateEmployee db id name role email phone).2.status = 500) := by
  have hl := filter_key_length_ne_zero Employee.id db.employees id h
  constructor
  · intro hn hr
    obtain ⟨n, rfl⟩ := Option.isSome_iff_exists.1 hn
    obtain ⟨r, rfl⟩ := Option.isSome_iff_exists.1 hr
    simp [updateEmployee, updateEmployeeRows, hl]
  · intro hnr
    cases name <;> cases role <;> simp [updateEmployee, updateEmployeeRows, hl] at hnr ⊢

/-- An update of an existing shift is answered 200 when the four `NOT NULL` columns
are given and 500 when one of them is absent. -/
theorem updateShift_existing (db : Store) (id : Nat)
    (date start_time end_time position : Option String) (employee_id : Option Int)
    (notes : Option String) (h : ∃ s ∈ db.shifts, s.id = id) :
    (date.isSome = true → start_time.isSome = true → end_time.isSome = true →
      position.isSome = true →
      updateShift db id date start_time end_time position employee_id notes =
        ({ db with shifts := db.shifts.map (fun s =>
              if s.id == id then { s with date := date, start_time := start_time,
                                          end_time := end_time, position := position,
                                          employee_id := employee_id, notes := notes }
              else s) },
         ⟨200, .shiftFields id date start_time end_time position employee_id notes⟩)) ∧
    ((date = none ∨ start_time = none ∨ end_time = none ∨ position = none) →
      (updateShift db id date start_time end_time position employee_id notes).1 = db ∧
      (updateShift db id date start_time end_time position employee_id notes).2.status
        = 500) := by
  have hl := filter_key_length_ne_zero Shift.id db.shifts id h
  constructor
  · intro hd hs he hp
    obtain ⟨d, rfl⟩ := Option.isSome_iff_exists.1 hd
    obtain ⟨st, rfl⟩ := Option.isSome_iff_exists.1 hs
    obtain ⟨en, rfl⟩ := Option.isSome_iff_exists.1 he
    obtain ⟨p, rfl⟩ := Option.isSome_iff_exists.1 hp
    simp [updateShift, updateShiftRows, hl]
  · intro hnr
    cases date <;> cases start_time <;> cases end_time <;> cases position <;>
      simp [updateShift, updateShiftRows, hl] at hnr ⊢

/-- C4: on an id that no record of the kind has, `getEmployee`, `updateEmployee`,
`deleteEmployee`, `getShift`, `updateShift` and `deleteShift` answer 404 and leave the
database as it was; on an id that a record has, none of them answers 404. -/
theorem not_found_exactly_on_missing_id (db : Store) (id : Nat)
    (name role email phone : Option String)
    (date start_time end_time position : Option String) (employee_id : Option Int)
    (notes : Option String) :
    ((∀ e ∈ db.employees, e.id ≠ id) →
      getEmployee db id = (db, ⟨404, .error "Employee not found"⟩) ∧
      updateEmployee db id name role email phone =
        (db, ⟨404, .error "Employee not found"⟩) ∧
      deleteEmployee db id = (db, ⟨404, .error "Employee not found"⟩)) ∧
    ((∀ s ∈ db.shifts, s.id ≠ id) →
      getShift db id = (db, ⟨404, .error "Shift not found"⟩) ∧
      updateShift db id date start_time end_time position employee_id notes =
        (db, ⟨404, .error "Shift not found"⟩) ∧
      deleteShift db id = (db, ⟨404, .error "Shift not found"⟩)) ∧
    ((∃ e ∈ db.employees, e.id = id) →
      (getEmployee db id).2.status ≠ 404 ∧
      (updateEmployee db id name role email phone).2.status ≠ 404 ∧
      (deleteEmployee db id).2.status ≠ 404) ∧
    ((∃ s ∈ db.shifts, s.id = id) →
      (getShift db id).2.status ≠ 404 ∧
      (updateShift db id date start_time end_time position employee_id notes).2.status
        ≠ 404 ∧
      (deleteShift db id).2.status ≠ 404) := by
  refine ⟨?_, ?_, ?_, ?_⟩
  · intro h
    exact ⟨getEmployee_missing db id h, updateEmployee_missing db id name role email phone h,
      deleteEmployee_missing db id h⟩
  · intro h
    exact ⟨getShift_missing db id h,
      updateShift_missing db id date start_time end_time position employee_id notes h,
      deleteShift_missing db id h⟩
  · intro h
    refine ⟨?_, ?_, ?_⟩
    · obtain ⟨row, _, _, hg⟩ := getEmployee_existing db id h
      rw [hg]; simp
    · have hu := updateEmployee_existing db id name role email phone h
      by_cases hn : name = none ∨ role = none
      · rw [(hu.2 hn).2]; simp
      · push_neg at hn
        rw [hu.1 (Option.ne_none_iff_isSome.1 hn.1) (Option.ne_none_iff_isSome.1 hn.2)]
        simp
    · rw [deleteEmployee_existing db id h]; simp
  · intro h
    refine ⟨?_, ?_, ?_⟩
    · obtain ⟨row, _, _, hg⟩ := getShift_existing db id h
      rw [hg]; simp
    · have hu := updateShift_existing db id date start_time end_time position employee_id
        notes h
      by_cases hn : date = none ∨ start_time = none ∨ end_time = none ∨ position = none
      · rw [(hu.2 hn).2]; simp
      · push_neg at hn
        rw [hu.1 (Option.ne_none_iff_isSome.1 hn.1) (Option.ne_none_iff_isSome.1 hn.2.1)
          (Option.ne_none_iff_isSome.1 hn.2.2.1) (Option.ne_none_iff_isSome.1 hn.2.2.2)]
        simp
    · rw [deleteShift_existing db id h]; simp

/-! ## Fresh ids -/

theorem le_maxRowid (ids : List Nat) (x : Nat) (hx : x ∈ ids) : x ≤ maxRowid ids := by
  induction ids with
  | nil => simp at hx
  | cons a t ih =>
    simp only [maxRowid, List.foldr_cons] at ih ⊢
    rcases List.mem_cons.1 hx with rfl | h
    · exact Nat.le_max_left _ _
    · exact Nat.le_trans (ih h) (Nat.le_max_right _ _)

theorem lt_nextRowid_of_mem (seq : Nat) (ids : List Nat) (x : Nat) (hx : x ∈ ids) :
    x < nextRowid seq ids := by
  have h := le_maxRowid ids x hx
  unfold nextRowid
  omega

theorem lt_nextRowid_seq (seq : Nat) (ids : List Nat) : seq < nextRowid seq ids := by
  unfold nextRowid
  omega

/-- C5: for a non-empty `name` and `role` and any (possibly absent) `email` and
`phone`, `createEmployee` answers 200 with a record carrying an id, and `getEmployee`
of that id on the resulting database answers 200 with a record whose id, name, role,
email and phone are those of the record `createEmployee` returned. -/
theorem create_then_get_employee (db : Store) (name role : String)
    (email phone : Option String) (now : String) (hn : name ≠ "") (hr : role ≠ "") :
    ∃ id row,
      (createEmployee db (some name) (some role) email phone now).2 =
        ⟨200, .employeeFields id (some name) (some role) email phone⟩ ∧
      getEmployee (createEmployee db (some name) (some role) email phone now).1 id =
        ((createEmployee db (some name) (some role) email phone now).1,
          ⟨200, .employee row⟩) ∧
      row.id = id ∧ row.name = some name ∧ row.role = some role ∧ row.email = email ∧
        row.phone = phone := by
  have hv := createEmployee_valid db (some name) (some role) email phone now
    (by simp [truthy, hn]) (by simp [truthy, hr])
  refine ⟨nextRowid db.employees_seq (db.employees.map Employee.id),
    ⟨nextRowid db.employees_seq (db.employees.map Employee.id), some name, some role, email,
      phone, some now⟩, ?_, ?_, rfl, rfl, rfl, rfl, rfl⟩
  · rw [hv]
  · rw [hv]
    have hold : db.employees.filter
        (fun e => e.id == nextRowid db.employees_seq (db.employees.map Employee.id)) = [] := by
      apply filter_key_eq_nil Employee.id
      intro e he
      have := lt_nextRowid_of_mem db.employees_seq (db.employees.map Employee.id) e.id
        (List.mem_map_of_mem Employee.id he)
      omega
    simp [getEmployee, List.filter_append, hold]

/-! ## Deleting -/

theorem length_filter_key_of_nodup {α : Type} (key : α → Nat) (l : List α) (id : Nat)
    (h : ∃ x ∈ l, key x = id) (hn : (l.map key).Nodup) :
    (l.filter (fun x => !(key x == id))).length + 1 = l.length := by
  obtain ⟨x, hx, rfl⟩ := h
  have h1 := filter_key_of_nodup key l x hx hn
  have h2 := List.length_eq_length_filter_add (l := l) (fun y => key y == key x)
  rw [h1] at h2
  simp only [List.length_singleton] at h2
  omega

/-- C8: deleting the id of an existing record answers 200 with the confirmation
payload, removes that record and nothing else, and a second delete of the same id on
the resulting database answers 404; for `deleteEmployee` and for `deleteShift`. -/
theorem delete_twice_succeeds_then_not_found (db : Store) (id : Nat)
    (hpk : db.PrimaryKeys) :
    ((∃ e ∈ db.employees, e.id = id) →
      (deleteEmployee db id).2 = ⟨200, .deleted "Employee deleted" id⟩ ∧
      (∀ e, e ∈ (deleteEmployee db id).1.employees ↔ e ∈ db.employees ∧ e.id ≠ id) ∧
      (deleteEmployee db id).1.employees.Sublist db.employees ∧
      (deleteEmployee db id).1.employees.length + 1 = db.employees.length ∧
      (deleteEmployee db id).1.shifts = db.shifts ∧
      deleteEmployee (deleteEmployee db id).1 id =
        ((deleteEmployee db id).1, ⟨404, .error "Employee not found"⟩)) ∧
    ((∃ s ∈ db.shifts, s.id = id) →
      (deleteShift db id).2 = ⟨200, .deleted "Shift deleted" id⟩ ∧
      (∀ s, s ∈ (deleteShift db id).1.shifts ↔ s ∈ db.shifts ∧ s.id ≠ id) ∧
      (deleteShift db id).1.shifts.Sublist db.shifts ∧
      (deleteShift db id).1.shifts.length + 1 = db.shifts.length ∧
      (deleteShift db id).1.employees = db.employees ∧
      deleteShift (deleteShift db id).1 id =
        ((deleteShift db id).1, ⟨404, .error "Shift not found"⟩)) := by
  constructor
  · intro h
    rw [deleteEmployee_existing db id h]
    refine ⟨rfl, ?_, List.filter_sublist _, ?_, rfl, ?_⟩
    · intro e
      simp [List.mem_filter]
    · exact length_filter_key_of_nodup Employee.id db.employees id h hpk.1
    · apply deleteEmployee_missing
      intro e he
      simpa [List.mem_filter] using (List.mem_filter.1 he).2
  · intro h
    rw [deleteShift_existing db id h]
    refine ⟨rfl, ?_, List.filter_sublist _, ?_, rfl, ?_⟩
    · intro s
      simp [List.mem_filter]
    · exact length_filter_key_of_nodup Shift.id db.shifts id h hpk.2
    · apply deleteShift_missing
      intro s hs
      simpa [List.mem_filter] using (List.mem_filter.1 hs).2

/-! ## Dangling references -/

theorem filter_leftJoin_id (ss : List Shift) (es : List Employee) (id : Nat) :
    (leftJoin ss es).filter (fun r => r.shift.id == id) =
      leftJoin (ss.filter (fun s => s.id == id)) es := by
  induction ss with
  | nil => rfl
  | cons s t ih =>
    rw [leftJoin_cons, List.filter_append, ih]
    by_cases hs : s.id = id
    · have h1 : (leftJoin [s] es).filter (fun r => r.shift.id == id) = leftJoin [s] es := by
        rw [List.filter_eq_self]
        intro r hr
        rw [leftJoin_single_shift s es r hr]
        simpa using hs
      rw [h1, List.filter_cons_of_pos (by simpa using hs)]
      exact (leftJoin_cons s _ es).symm
    · have h1 : (leftJoin [s] es).filter (fun r => r.shift.id == id) = [] := by
        rw [List.filter_eq_nil_iff]
        intro r hr
        rw [leftJoin_single_shift s es r hr]
        simpa using hs
      rw [h1, List.filter_cons_of_neg (by simpa using hs), List.nil_append]

/-- C7: when employee `e` exists and shift `s` is assigned to `e`, `deleteEmployee e`
answers 200, leaves table `shifts` as it was, and `getShift s.id` afterwards answers
200 with the shift, its `employee_id` still `e` and its `employee_name` null. -/
theorem delete_employee_leaves_shifts (db : Store) (e : Nat) (s : Shift)
    (hpk : db.PrimaryKeys) (he : ∃ x ∈ db.employees, x.id = e) (hs : s ∈ db.shifts)
    (hse : s.employee_id = some (e : Int)) :
    (deleteEmployee db e).2 = ⟨200, .deleted "Employee deleted" e⟩ ∧
    (deleteEmployee db e).1.shifts = db.shifts ∧
    getShift (deleteEmployee db e).1 s.id =
      ((deleteEmployee db e).1, ⟨200, .shift ⟨s, none⟩⟩) ∧
    (⟨s, none⟩ : ShiftRow).shift.employee_id = some (e : Int) := by
  rw [deleteEmployee_existing db e he]
  refine ⟨rfl, rfl, ?_, hse⟩
  have h1 : db.shifts.filter (fun x => x.id == s.id) = [s] :=
    filter_key_of_nodup Shift.id db.shifts s hs hpk.2
  have h2 : leftJoin [s] (db.employees.filter (fun x => !(x.id == e))) = [⟨s, none⟩] := by
    apply leftJoin_single_unmatched
    intro x hx hc
    rw [hse] at hc
    have hxe : x.id ≠ e := by simpa using (List.mem_filter.1 hx).2
    apply hxe
    have := Option.some.inj hc
    omega
  simp only [getShift, filter_leftJoin_id, h1, h2, List.head?_cons]

/-! ## Updating a shift -/

/-- C9, as the code has it: `updateShift` on an existing id performs no validation of
its own. When `date`, `start_time`, `end_time` and `position` are all given, empty
texts included, it answers 200 and the stored shift carries the six given values;
when one of the four is absent the `NOT NULL` constraint fails, the answer is 500 and
the database is left as it was. -/
theorem updateShift_writes_given_values (db : Store) (id : Nat)
    (date start_time end_time position : Option String) (employee_id : Option Int)
    (notes : Option String) (h : ∃ s ∈ db.shifts, s.id = id) :
    ((date ≠ none ∧ start_time ≠ none ∧ end_time ≠ none ∧ position ≠ none) →
      (updateShift db id date start_time end_time position employee_id notes).2 =
        ⟨200, .shiftFields id date start_time end_time position employee_id notes⟩ ∧
      (∃ s ∈ (updateShift db id date start_time end_time position employee_id notes).1.shifts,
        s.id = id) ∧
      (∀ s ∈ (updateShift db id date start_time end_time position employee_id notes).1.shifts,
        s.id = id →
          s.date = date ∧ s.start_time = start_time ∧ s.end_time = end_time ∧
          s.position = position ∧ s.employee_id = employee_id ∧ s.notes = notes)) ∧
    ((date = none ∨ start_time = none ∨ end_time = none ∨ position = none) →
      (updateShift db id date start_time end_time position employee_id notes).2.status
        = 500 ∧
      (updateShift db id date start_time end_time position employee_id notes).1 = db) := by
  have hu := updateShift_existing db id date start_time end_time position employee_id notes h
  constructor
  · rintro ⟨hd, hs, he, hp⟩
    rw [hu.1 (Option.ne_none_iff_isSome.1 hd) (Option.ne_none_iff_isSome.1 hs)
      (Option.ne_none_iff_isSome.1 he) (Option.ne_none_iff_isSome.1 hp)]
    refine ⟨rfl, ?_, ?_⟩
    · obtain ⟨s, hs1, hs2⟩ := h
      refine ⟨_, List.mem_map_of_mem _ hs1, ?_⟩
      simp [hs2]
    · intro s hs1 hs2
      simp only [List.mem_map] at hs1
      obtain ⟨a, _, rfl⟩ := hs1
      by_cases ha : a.id = id
      · simp [ha]
      · simp [ha] at hs2
  · intro hn
    exact ⟨(hu.2 hn).2, (hu.2 hn).1⟩

/-! ## Listing shifts -/

theorem selectShifts_perm (db : Store) (f : Filter) :
    (selectShifts db f).Perm ((leftJoin db.shifts db.employees).filter (whereClause f)) :=
  List.perm_insertionSort _ _

theorem selectShifts_sorted (db : Store) (f : Filter) :
    (selectShifts db f).Pairwise (fun a b =>
      sqlLt a.shift.date b.shift.date = true ∨
        (a.shift.date = b.shift.date ∧
          sqlLe a.shift.start_time b.shift.start_time = true)) := by
  have h := @List.sorted_insertionSort ShiftRow (fun a b => orderLe a b = true) _
    ⟨orderLe_total⟩ ⟨orderLe_trans⟩
    ((leftJoin db.shifts db.employees).filter (whereClause f))
  exact List.Pairwise.imp (fun {a b} hab => (orderLe_iff a b).1 hab) h

/-- The shifts of the selected rows, for a predicate on shifts that the `WHERE`
clause amounts to. -/
theorem selectShifts_map_shift (db : Store) (f : Filter) (p : Shift → Bool)
    (hpk : db.PrimaryKeys) (hp : ∀ r, whereClause f r = p r.shift) :
    ((selectShifts db f).map ShiftRow.shift).Perm (db.shifts.filter p) := by
  have h1 := (selectShifts_perm db f).map ShiftRow.shift
  have h2 : (leftJoin db.shifts db.employees).filter (whereClause f) =
      (leftJoin db.shifts db.employees).filter (p ∘ ShiftRow.shift) := by
    apply List.filter_congr
    intro r _
    exact hp r
  rw [h2, ← List.filter_map, leftJoin_map_shift_of_nodup db.shifts db.employees hpk.1] at h1
  exact h1

/-- C2: with no filter, `listShifts` answers 200 with rows that hold every stored
shift exactly once and are in ascending order of `date`, rows of one date being in
ascending order of `start_time`. -/
theorem listShifts_complete_and_sorted (db : Store) (hpk : db.PrimaryKeys) :
    ∃ rows, listShifts db ⟨none, none⟩ = (db, ⟨200, .shifts rows⟩) ∧
      (rows.map ShiftRow.shift).Perm db.shifts ∧
      rows.Pairwise (fun a b =>
        sqlLt a.shift.date b.shift.date = true ∨
          (a.shift.date = b.shift.date ∧
            sqlLe a.shift.start_time b.shift.start_time = true)) := by
  refine ⟨selectShifts db ⟨none, none⟩, rfl, ?_, selectShifts_sorted db _⟩
  have h := selectShifts_map_shift db ⟨none, none⟩ (fun _ => true) hpk
    (by intro r; simp [whereClause, truthy, idTruthy])
  simpa using h

/-- C1, as the code has it: `listShifts` answers 200 with rows holding exactly the
shifts selected as follows. If the filter's `date` is present and not empty: the
shifts whose date equals it, whatever `employee_id` the filter carries. Otherwise
(`date` absent or empty), if `employee_id` is present and not empty: the shifts whose
`employee_id` equals it. Otherwise (`employee_id` absent or empty as well): every
shift. -/
theorem listShifts_filter_precedence (db : Store) (f : Filter) (hpk : db.PrimaryKeys) :
    ∃ rows, listShifts db f = (db, ⟨200, .shifts rows⟩) ∧
      (∀ d, f.date = some d → d ≠ "" →
        (rows.map ShiftRow.shift).Perm (db.shifts.filter (fun s => s.date == some d))) ∧
      ((f.date = none ∨ f.date = some "") → ∀ n, f.employee_id = some (.integer n) →
        (rows.map ShiftRow.shift).Perm
          (db.shifts.filter (fun s => s.employee_id == some n))) ∧
      ((f.date = none ∨ f.date = some "") →
        (f.employee_id = none ∨ f.employee_id = some .empty) →
        (rows.map ShiftRow.shift).Perm db.shifts) := by
  refine ⟨selectShifts db f, rfl, ?_, ?_, ?_⟩
  · intro d hd hne
    apply selectShifts_map_shift db f _ hpk
    intro r
    simp [whereClause, hd, truthy, hne]
  · intro hd n hn
    apply selectShifts_map_shift db f _ hpk
    intro r
    have ht : truthy f.date = false := (truthy_eq_false_iff f.date).2 hd
    simp [whereClause, ht, hn, idTruthy, idEquals]
  · intro hd hn
    have ht : truthy f.date = false := (truthy_eq_false_iff f.date).2 hd
    have h := selectShifts_map_shift db f (fun _ => true) hpk
      (by intro r; rcases hn with hn | hn <;> simp [whereClause, ht, hn, idTruthy])
    simpa using h

/-! ## Effect of one request on the database -/

/-- The employee with the four columns replaced, as an `UPDATE` leaves it. -/
theorem updateEmployee_store (db : Store) (id : Nat) (name role email phone : Option String) :
    (updateEmployee db id name role email phone).1 = db ∨
    (name ≠ none ∧ role ≠ none ∧
      (updateEmployee db id name role email phone).1 =
        { db with employees := db.employees.map (fun e =>
            if e.id == id then { e with name := name, role := role, email := email,
                                        phone := phone }
            else e) }) := by
  by_cases h : ∃ e ∈ db.employees, e.id = id
  · have hu := updateEmployee_existing db id name role email phone h
    by_cases hn : name = none ∨ role = none
    · exact Or.inl (hu.2 hn).1
    · push_neg at hn
      right
      refine ⟨hn.1, hn.2, ?_⟩
      rw [hu.1 (Option.ne_none_iff_isSome.1 hn.1) (Option.ne_none_iff_isSome.1 hn.2)]
  · push_neg at h
    left
    rw [updateEmployee_missing db id name role email phone h]

theorem updateShift_store (db : Store) (id : Nat)
    (date start_time end_time position : Option String) (employee_id : Option Int)
    (notes : Option String) :
    (updateShift db id date start_time end_time position employee_id notes).1 = db ∨
    (date ≠ none ∧ start_time ≠ none ∧ end_time ≠ none ∧ position ≠ none ∧
      (updateShift db id date start_time end_time position employee_id notes).1 =
        { db with shifts := db.shifts.map (fun s =>
            if s.id == id then { s with date := date, start_time := start_time,
                                        end_time := end_time, position := position,
                                        employee_id := employee_id, notes := notes }
            else s) }) := by
  by_cases h : ∃ s ∈ db.shifts, s.id = id
  · have hu := updateShift_existing db id date start_time end_time position employee_id
      notes h
    by_cases hn : date = none ∨ start_time = none ∨ end_time = none ∨ position = none
    · exact Or.inl (hu.2 hn).1
    · push_neg at hn
      right
      refine ⟨hn.1, hn.2.1, hn.2.2.1, hn.2.2.2, ?_⟩
      rw [hu.1 (Option.ne_none_iff_isSome.1 hn.1) (Option.ne_none_iff_isSome.1 hn.2.1)
        (Option.ne_none_iff_isSome.1 hn.2.2.1) (Option.ne_none_iff_isSome.1 hn.2.2.2)]
  · push_neg at h
    left
    rw [updateShift_missing db id date start_time end_time position employee_id notes h]

theorem deleteEmployee_store (db : Store) (id : Nat) :
    (deleteEmployee db id).1 =
      { db with employees := db.employees.filter (fun e => !(e.id == id)) } := by
  simp only [deleteEmployee, deleteEmployeeRows]
  split <;> rfl

theorem deleteShift_store (db : Store) (id : Nat) :
    (deleteShift db id).1 =
      { db with shifts := db.shifts.filter (fun s => !(s.id == id)) } := by
  simp only [deleteShift, deleteShiftRows]
  split <;> rfl

theorem getEmployee_store (db : Store) (id : Nat) : (getEmployee db id).1 = db := by
  unfold getEmployee
  split <;> rfl

theorem getShift_store (db : Store) (id : Nat) : (getShift db id).1 = db := by
  unfold getShift
  split <;> rfl

/-- Either a create is rejected and changes nothing, or it appends one row whose id is
the next rowid. -/
theorem createEmployee_cases (db : Store) (name role email phone : Option String)
    (now : String) :
    createEmployee db name role email phone now =
        (db, ⟨400, .error "Name and role are required"⟩) ∨
    (truthy name = true ∧ truthy role = true ∧
      createEmployee db name role email phone now =
        ({ db with
            employees := db.employees ++
              [⟨nextRowid db.employees_seq (db.employees.map Employee.id),
                name, role, email, phone, some now⟩],
            employees_seq := nextRowid db.employees_seq (db.employees.map Employee.id) },
         ⟨200, .employeeFields (nextRowid db.employees_seq (db.employees.map Employee.id))
            name role email phone⟩)) := by
  by_cases h : truthy name = false ∨ truthy role = false
  · exact Or.inl (createEmployee_invalid db name role email phone now h)
  · push_neg at h
    simp only [Bool.not_eq_false] at h
    exact Or.inr ⟨h.1, h.2, createEmployee_valid db name role email phone now h.1 h.2⟩

theorem createShift_cases (db : Store) (date start_time end_time position : Option String)
    (employee_id : Option Int) (notes : Option String) (now : String) :
    createShift db date start_time end_time position employee_id notes now =
        (db, ⟨400, .error "Date, start_time, end_time, and position are required"⟩) ∨
    (truthy date = true ∧ truthy start_time = true ∧ truthy end_time = true ∧
      truthy position = true ∧
      createShift db date start_time end_time position employee_id notes now =
        ({ db with
            shifts := db.shifts ++
              [⟨nextRowid db.shifts_seq (db.shifts.map Shift.id),
                date, start_time, end_time, position, employee_id, notes, some now⟩],
            shifts_seq := nextRowid db.shifts_seq (db.shifts.map Shift.id) },
         ⟨200, .shiftFields (nextRowid db.shifts_seq (db.shifts.map Shift.id))
            date start_time end_time position employee_id notes⟩)) := by
  by_cases h : truthy date = false ∨ truthy start_time = false ∨ truthy end_time = false ∨
      truthy position = false
  · exact Or.inl (createShift_invalid db date start_time end_time position employee_id notes
      now h)
  · push_neg at h
    simp only [Bool.not_eq_false] at h
    exact Or.inr ⟨h.1, h.2.1, h.2.2.1, h.2.2.2,
      createShift_valid db date start_time end_time position employee_id notes now
        h.1 h.2.1 h.2.2.1 h.2.2.2⟩

/-! ## Sequence counters -/

theorem step_employees_seq_le (db : Store) (op : Op) :
    db.employees_seq ≤ (step db op).1.employees_seq := by
  cases op with
  | listEmployees => exact Nat.le_refl _
  | getEmployee id => simp [step, getEmployee_store]
  | createEmployee name role email phone now =>
    rcases createEmployee_cases db name role email phone now with h | ⟨_, _, h⟩
    · simp [step, h]
    · simp only [step, h]
      exact Nat.le_of_lt (lt_nextRowid_seq _ _)
  | updateEmployee id name role email phone =>
    rcases updateEmployee_store db id name role email phone with h | ⟨_, _, h⟩ <;>
      simp [step, h]
  | deleteEmployee id => simp [step, deleteEmployee_store]
  | listShifts f => exact Nat.le_refl _
  | getShift id => simp [step, getShift_store]
  | createShift d st en p e n now =>
    rcases createShift_cases db d st en p e n now with h | ⟨_, _, _, _, h⟩ <;>
      simp [step, h]
  | updateShift id d st en p e n =>
    rcases updateShift_store db id d st en p e n with h | ⟨_, _, _, _, h⟩ <;>
      simp [step, h]
  | deleteShift id => simp [step, deleteShift_store]

theorem step_shifts_seq_le (db : Store) (op : Op) :
    db.shifts_seq ≤ (step db op).1.shifts_seq := by
  cases op with
  | listEmployees => exact Nat.le_refl _
  | getEmployee id => simp [step, getEmployee_store]
  | createEmployee name role email phone now =>
    rcases createEmployee_cases db name role email phone now with h | ⟨_, _, h⟩ <;>
      simp [step, h]
  | updateEmployee id name role email phone =>
    rcases updateEmployee_store db id name role email phone with h | ⟨_, _, h⟩ <;>
      simp [step, h]
  | deleteEmployee id => simp [step, deleteEmployee_store]
  | listShifts f => exact Nat.le_refl _
  | getShift id => simp [step, getShift_store]
  | createShift d st en p e n now =>
    rcases createShift_cases db d st en p e n now with h | ⟨_, _, _, _, h⟩
    · simp [step, h]
    · simp only [step, h]
      exact Nat.le_of_lt (lt_nextRowid_seq _ _)
  | updateShift id d st en p e n =>
    rcases updateShift_store db id d st en p e n with h | ⟨_, _, _, _, h⟩ <;>
      simp [step, h]
  | deleteShift id => simp [step, deleteShift_store]

/-- An id handed out by `createEmployee` is above the counter before the request and
is the counter after it. -/
theorem step_assignedEmployeeId (db : Store) (op : Op) (id : Nat)
    (h : assignedEmployeeId (op, (step db op).2) = some id) :
    db.employees_seq < id ∧ id = (step db op).1.employees_seq := by
  cases op with
  | createEmployee name role email phone now =>
    rcases createEmployee_cases db name role email phone now with hc | ⟨_, _, hc⟩
    · simp [step, hc, assignedEmployeeId] at h
    · simp only [step, hc, assignedEmployeeId, Option.some.injEq] at h ⊢
      subst h
      exact ⟨lt_nextRowid_seq _ _, rfl⟩
  | _ => simp [assignedEmployeeId] at h

theorem step_assignedShiftId (db : Store) (op : Op) (id : Nat)
    (h : assignedShiftId (op, (step db op).2) = some id) :
    db.shifts_seq < id ∧ id = (step db op).1.shifts_seq := by
  cases op with
  | createShift d st en p e n now =>
    rcases createShift_cases db d st en p e n now with hc | ⟨_, _, _, _, hc⟩
    · simp [step, hc, assignedShiftId] at h
    · simp only [step, hc, assignedShiftId, Option.some.injEq] at h ⊢
      subst h
      exact ⟨lt_nextRowid_seq _ _, rfl⟩
  | _ => simp [assignedShiftId] at h

/-! ## Ids over a sequence of requests -/

theorem run_cons (db : Store) (op : Op) (ops : List Op) :
    run db (op :: ops) =
      ((run (step db op).1 ops).1, (op, (step db op).2) :: (run (step db op).1 ops).2) := rfl

theorem run_assignedEmployeeIds (ops : List Op) :
    ∀ db : Store,
      (∀ i ∈ assignedEmployeeIds (run db ops).2, db.employees_seq < i) ∧
      (assignedEmployeeIds (run db ops).2).Pairwise (fun a b => a < b) := by
  induction ops with
  | nil => intro db; simp [run, assignedEmployeeIds]
  | cons op ops ih =>
    intro db
    obtain ⟨ih1, ih2⟩ := ih (step db op).1
    have hle := step_employees_seq_le db op
    rw [run_cons]
    simp only [assignedEmployeeIds, List.filterMap_cons] at ih1 ih2 ⊢
    cases hid : assignedEmployeeId (op, (step db op).2) with
    | none =>
      simp only []
      exact ⟨fun i hi => Nat.lt_of_le_of_lt hle (ih1 i hi), ih2⟩
    | some id =>
      simp only []
      obtain ⟨h1, h2⟩ := step_assignedEmployeeId db op id hid
      constructor
      · intro i hi
        rcases List.mem_cons.1 hi with rfl | hi
        · exact h1
        · exact Nat.lt_of_le_of_lt hle (ih1 i hi)
      · rw [List.pairwise_cons]
        exact ⟨fun i hi => h2 ▸ ih1 i hi, ih2⟩

theorem run_assignedShiftIds (ops : List Op) :
    ∀ db : Store,
      (∀ i ∈ assignedShiftIds (run db ops).2, db.shifts_seq < i) ∧
      (assignedShiftIds (run db ops).2).Pairwise (fun a b => a < b) := by
  induction ops with
  | nil => intro db; simp [run, assignedShiftIds]
  | cons op ops ih =>
    intro db
    obtain ⟨ih1, ih2⟩ := ih (step db op).1
    have hle := step_shifts_seq_le db op
    rw [run_cons]
    simp only [assignedShiftIds, List.filterMap_cons] at ih1 ih2 ⊢
    cases hid : assignedShiftId (op, (step db op).2) with
    | none =>
      simp only []
      exact ⟨fun i hi => Nat.lt_of_le_of_lt hle (ih1 i hi), ih2⟩
    | some id =>
      simp only []
      obtain ⟨h1, h2⟩ := step_assignedShiftId db op id hid
      constructor
      · intro i hi
        rcases List.mem_cons.1 hi with rfl | hi
        · exact h1
        · exact Nat.lt_of_le_of_lt hle (ih1 i hi)
      · rw [List.pairwise_cons]
        exact ⟨fun i hi => h2 ▸ ih1 i hi, ih2⟩

/-! ## Primary keys are kept -/

theorem nodup_append_fresh (ids : List Nat) (seq : Nat) (h : ids.Nodup) :
    (ids ++ [nextRowid seq ids]).Nodup := by
  rw [List.nodup_append]
  refine ⟨h, List.nodup_singleton _, ?_⟩
  intro x hx hx2
  rw [List.mem_singleton] at hx2
  have := lt_nextRowid_of_mem seq ids x hx
  omega

theorem map_id_updateEmployee (l : List Employee) (id : Nat)
    (name role email phone : Option String) :
    (l.map (fun e =>
        if e.id == id then { e with name := name, role := role, email := email,
                                    phone := phone }
        else e)).map Employee.id = l.map Employee.id := by
  rw [List.map_map]
  apply List.map_congr_left
  intro e _
  simp only [Function.comp]
  split <;> rfl

theorem map_id_updateShift (l : List Shift) (id : Nat)
    (date start_time end_time position : Option String) (employee_id : Option Int)
    (notes : Option String) :
    (l.map (fun s =>
        if s.id == id then { s with date := date, start_time := start_time,
                                    end_time := end_time, position := position,
                                    employee_id := employee_id, notes := notes }
        else s)).map Shift.id = l.map Shift.id := by
  rw [List.map_map]
  apply List.map_congr_left
  intro e _
  simp only [Function.comp]
  split <;> rfl

theorem nodup_map_filter {α : Type} (key : α → Nat) (p : α → Bool) (l : List α)
    (h : (l.map key).Nodup) : ((l.filter p).map key).Nodup :=
  List.Nodup.sublist ((List.filter_sublist l).map key) h

theorem step_primaryKeys (db : Store) (op : Op) (h : db.PrimaryKeys) :
    (step db op).1.PrimaryKeys := by
  cases op with
  | listEmployees => exact h
  | getEmployee id => simpa [step, getEmployee_store] using h
  | createEmployee name role email phone now =>
    rcases createEmployee_cases db name role email phone now with hc | ⟨_, _, hc⟩
    · simpa [step, hc] using h
    · simp only [step, hc, Store.PrimaryKeys, List.map_append, List.map_cons, List.map_nil]
      exact ⟨nodup_append_fresh _ _ h.1, h.2⟩
  | updateEmployee id name role email phone =>
    rcases updateEmployee_store db id name role email phone with hc | ⟨_, _, hc⟩
    · simpa [step, hc] using h
    · simp only [step, hc, Store.PrimaryKeys, map_id_updateEmployee]
      exact h
  | deleteEmployee id =>
    simp only [step, deleteEmployee_store, Store.PrimaryKeys]
    exact ⟨nodup_map_filter Employee.id _ _ h.1, h.2⟩
  | listShifts f => exact h
  | getShift id => simpa [step, getShift_store] using h
  | createShift d st en p e n now =>
    rcases createShift_cases db d st en p e n now with hc | ⟨_, _, _, _, hc⟩
    · simpa [step, hc] using h
    · simp only [step, hc, Store.PrimaryKeys, List.map_append, List.map_cons, List.map_nil]
      exact ⟨h.1, nodup_append_fresh _ _ h.2⟩
  | updateShift id d st en p e n =>
    rcases updateShift_store db id d st en p e n with hc | ⟨_, _, _, _, hc⟩
    · simpa [step, hc] using h
    · simp only [step, hc, Store.PrimaryKeys, map_id_updateShift]
      exact h
  | deleteShift id =>
    simp only [step, deleteShift_store, Store.PrimaryKeys]
    exact ⟨h.1, nodup_map_filter Shift.id _ _ h.2⟩

theorem run_primaryKeys (ops : List Op) :
    ∀ db : Store, db.PrimaryKeys → (run db ops).1.PrimaryKeys := by
  induction ops with
  | nil => intro db h; exact h
  | cons op ops ih =>
    intro db h
    rw [run_cons]
    exact ih _ (step_primaryKeys db op h)

theorem empty_primaryKeys : Store.empty.PrimaryKeys := by
  simp [Store.PrimaryKeys, Store.empty]

/-- C6: over any sequence of requests served from the empty database, the ids handed
out by the successful `createEmployee` requests are strictly increasing, hence
pairwise distinct and never handed out again after a delete; likewise for
`createShift`; and in the database reached no two employees and no two shifts share
an id. -/
theorem assigned_ids_strictly_increasing (ops : List Op) :
    (assignedEmployeeIds (run Store.empty ops).2).Pairwise (fun a b => a < b) ∧
    (assignedShiftIds (run Store.empty ops).2).Pairwise (fun a b => a < b) ∧
    (assignedEmployeeIds (run Store.empty ops).2).Nodup ∧
    (assignedShiftIds (run Store.empty ops).2).Nodup ∧
    ((run Store.empty ops).1.employees.map Employee.id).Nodup ∧
    ((run Store.empty ops).1.shifts.map Shift.id).Nodup := by
  have he := (run_assignedEmployeeIds ops Store.empty).2
  have hs := (run_assignedShiftIds ops Store.empty).2
  have hpk := run_primaryKeys ops Store.empty empty_primaryKeys
  exact ⟨he, hs, he.imp (fun hab => Nat.ne_of_lt hab), hs.imp (fun hab => Nat.ne_of_lt hab),
    hpk.1, hpk.2⟩

/-! ## Required columns over a sequence of requests -/

theorem ne_none_of_truthy (x : Option String) (h : truthy x = true) : x ≠ none := by
  cases x with
  | none => simp [truthy] at h
  | some t => simp

theorem truthy_of_ne (x : Option String) (h1 : x ≠ none) (h2 : (x == some "") = false) :
    truthy x = true := by
  cases x with
  | none => exact absurd rfl h1
  | some t =>
    simp only [truthy, decide_eq_true_eq]
    intro hc
    simp [hc] at h2

theorem step_requiredPresent (db : Store) (op : Op) (h : db.RequiredPresent) :
    (step db op).1.RequiredPresent := by
  cases op with
  | listEmployees => exact h
  | getEmployee id => simpa [step, getEmployee_store] using h
  | createEmployee name role email phone now =>
    rcases createEmployee_cases db name role email phone now with hc | ⟨hn, hr, hc⟩
    · simpa [step, hc] using h
    · simp only [step, hc, Store.RequiredPresent]
      refine ⟨?_, h.2⟩
      intro e he
      rcases List.mem_append.1 he with he | he
      · exact h.1 e he
      · rw [List.mem_singleton] at he
        subst he
        exact ⟨ne_none_of_truthy _ hn, ne_none_of_truthy _ hr⟩
  | updateEmployee id name role email phone =>
    rcases updateEmployee_store db id name role email phone with hc | ⟨hn, hr, hc⟩
    · simpa [step, hc] using h
    · simp only [step, hc, Store.RequiredPresent]
      refine ⟨?_, h.2⟩
      intro e he
      rw [List.mem_map] at he
      obtain ⟨a, ha, rfl⟩ := he
      split
      · exact ⟨hn, hr⟩
      · exact h.1 a ha
  | deleteEmployee id =>
    simp only [step, deleteEmployee_store, Store.RequiredPresent]
    exact ⟨fun e he => h.1 e (List.mem_filter.1 he).1, h.2⟩
  | listShifts f => exact h
  | getShift id => simpa [step, getShift_store] using h
  | createShift d st en p e n now =>
    rcases createShift_cases db d st en p e n now with hc | ⟨hd, hs, he, hp, hc⟩
    · simpa [step, hc] using h
    · simp only [step, hc, Store.RequiredPresent]
      refine ⟨h.1, ?_⟩
      intro x hx
      rcases List.mem_append.1 hx with hx | hx
      · exact h.2 x hx
      · rw [List.mem_singleton] at hx
        subst hx
        exact ⟨ne_none_of_truthy _ hd, ne_none_of_truthy _ hs, ne_none_of_truthy _ he,
          ne_none_of_truthy _ hp⟩
  | updateShift id d st en p e n =>
    rcases updateShift_store db id d st en p e n with hc | ⟨hd, hs, he, hp, hc⟩
    · simpa [step, hc] using h
    · simp only [step, hc, Store.RequiredPresent]
      refine ⟨h.1, ?_⟩
      intro x hx
      rw [List.mem_map] at hx
      obtain ⟨a, ha, rfl⟩ := hx
      split
      · exact ⟨hd, hs, he, hp⟩
      · exact h.2 a ha
  | deleteShift id =>
    simp only [step, deleteShift_store, Store.RequiredPresent]
    exact ⟨h.1, fun x hx => h.2 x (List.mem_filter.1 hx).1⟩

theorem step_requiredNonEmpty (db : Store) (op : Op) (h : db.RequiredNonEmpty)
    (hw : writesEmptyText op = false) : (step db op).1.RequiredNonEmpty := by
  cases op with
  | listEmployees => exact h
  | getEmployee id => simpa [step, getEmployee_store] using h
  | createEmployee name role email phone now =>
    rcases createEmployee_cases db name role email phone now with hc | ⟨hn, hr, hc⟩
    · simpa [step, hc] using h
    · simp only [step, hc, Store.RequiredNonEmpty]
      refine ⟨?_, h.2⟩
      intro e he
      rcases List.mem_append.1 he with he | he
      · exact h.1 e he
      · rw [List.mem_singleton] at he
        subst he
        exact ⟨hn, hr⟩
  | updateEmployee id name role email phone =>
    simp only [writesEmptyText, Bool.or_eq_false_iff] at hw
    rcases updateEmployee_store db id name role email phone with hc | ⟨hn, hr, hc⟩
    · simpa [step, hc] using h
    · simp only [step, hc, Store.RequiredNonEmpty]
      refine ⟨?_, h.2⟩
      intro e he
      rw [List.mem_map] at he
      obtain ⟨a, ha, rfl⟩ := he
      split
      · exact ⟨truthy_of_ne _ hn hw.1, truthy_of_ne _ hr hw.2⟩
      · exact h.1 a ha
  | deleteEmployee id =>
    simp only [step, deleteEmployee_store, Store.RequiredNonEmpty]
    exact ⟨fun e he => h.1 e (List.mem_filter.1 he).1, h.2⟩
  | listShifts f => exact h
  | getShift id => simpa [step, getShift_store] using h
  | createShift d st en p e n now =>
    rcases createShift_cases db d st en p e n now with hc | ⟨hd, hs, he, hp, hc⟩
    · simpa [step, hc] using h
    · simp only [step, hc, Store.RequiredNonEmpty]
      refine ⟨h.1, ?_⟩
      intro x hx
      rcases List.mem_append.1 hx with hx | hx
      · exact h.2 x hx
      · rw [List.mem_singleton] at hx
        subst hx
        exact ⟨hd, hs, he, hp⟩
  | updateShift id d st en p e n =>
    simp only [writesEmptyText, Bool.or_eq_false_iff] at hw
    rcases updateShift_store db id d st en p e n with hc | ⟨hd, hs, he, hp, hc⟩
    · simpa [step, hc] using h
    · simp only [step, hc, Store.RequiredNonEmpty]
      refine ⟨h.1, ?_⟩
      intro x hx
      rw [List.mem_map] at hx
      obtain ⟨a, ha, rfl⟩ := hx
      split
      · exact ⟨truthy_of_ne _ hd hw.1.1.1, truthy_of_ne _ hs hw.1.1.2,
          truthy_of_ne _ he hw.1.2, truthy_of_ne _ hp hw.2⟩
      · exact h.2 a ha
  | deleteShift id =>
    simp only [step, deleteShift_store, Store.RequiredNonEmpty]
    exact ⟨h.1, fun x hx => h.2 x (List.mem_filter.1 hx).1⟩

theorem run_requiredPresent (ops : List Op) :
    ∀ db : Store, db.RequiredPresent → (run db ops).1.RequiredPresent := by
  induction ops with
  | nil => intro db h; exact h
  | cons op ops ih =>
    intro db h
    rw [run_cons]
    exact ih _ (step_requiredPresent db op h)

theorem run_requiredNonEmpty (ops : List Op) :
    ∀ db : Store, db.RequiredNonEmpty → (∀ op ∈ ops, writesEmptyText op = false) →
      (run db ops).1.RequiredNonEmpty := by
  induction ops with
  | nil => intro db h _; exact h
  | cons op ops ih =>
    intro db h hw
    rw [run_cons]
    exact ih _ (step_requiredNonEmpty db op h (hw op (List.mem_cons_self _ _)))
      (fun o ho => hw o (List.mem_cons_of_mem _ ho))

/-- C10, as the code has it: in every database reached from the empty one by a
sequence of requests, every employee has a `name` and a `role` and every shift a
`date`, `start_time`, `end_time` and `position` that is not absent; these values are
also non-empty texts provided no update request of the sequence carried an empty text
for one of them. -/
theorem required_columns_present (ops : List Op) :
    (run Store.empty ops).1.RequiredPresent ∧
    ((∀ op ∈ ops, writesEmptyText op = false) → (run Store.empty ops).1.RequiredNonEmpty) := by
  constructor
  · apply run_requiredPresent
    simp [Store.RequiredPresent, Store.empty]
  · intro hw
    apply run_requiredNonEmpty ops Store.empty _ hw
    simp [Store.RequiredNonEmpty, Store.empty]

/-! ## Concrete instances -/

/-- C1 fails as stated: a filter parameter that is present but empty is not applied.
With an empty `date`, and likewise with an empty `employee_id`, `listShifts` returns
both sample shifts, although no shift has the empty date and no shift can equal an
empty `employee_id`. -/
theorem listShifts_empty_filter_not_applied :
    listShifts sampleStore ⟨some "", none⟩ =
      (sampleStore, ⟨200, .shifts
        [⟨⟨1, some "2024-01-01", some "09:00", some "17:00", some "Manager", some 1, none,
            some "2024-01-01 08:10:00"⟩, some "Ann"⟩,
         ⟨⟨2, some "2024-01-02", some "10:00", some "18:00", some "Cook", some 2, none,
            some "2024-01-01 08:15:00"⟩, some "Bob"⟩]⟩) ∧
    sampleStore.shifts.filter (fun s => s.date == some "") = [] ∧
    listShifts sampleStore ⟨none, some .empty⟩ =
      (sampleStore, ⟨200, .shifts
        [⟨⟨1, some "2024-01-01", some "09:00", some "17:00", some "Manager", some 1, none,
            some "2024-01-01 08:10:00"⟩, some "Ann"⟩,
         ⟨⟨2, some "2024-01-02", some "10:00", some "18:00", some "Cook", some 2, none,
            some "2024-01-01 08:15:00"⟩, some "Bob"⟩]⟩) ∧
    sampleStore.shifts.filter (fun s => idEquals s.employee_id (some .empty)) = [] := by
  decide

/-- Instance of C1 on the sample database: the filter with `date` 2024-01-01 and
`employee_id` 2 selects the shift of 2024-01-01 only; the filter with an empty `date`
and `employee_id` 2 selects the shift of employee 2; the filter with both empty
selects both shifts. -/
theorem listShifts_filter_precedence_witness :
    sampleStore.PrimaryKeys ∧
    (∃ rows, listShifts sampleStore ⟨some "2024-01-01", some (.integer 2)⟩ =
        (sampleStore, ⟨200, .shifts rows⟩) ∧
      (rows.map ShiftRow.shift).Perm
        [⟨1, some "2024-01-01", some "09:00", some "17:00", some "Manager", some 1, none,
          some "2024-01-01 08:10:00"⟩]) ∧
    (∃ rows, listShifts sampleStore ⟨some "", some (.integer 2)⟩ =
        (sampleStore, ⟨200, .shifts rows⟩) ∧
      (rows.map ShiftRow.shift).Perm
        [⟨2, some "2024-01-02", some "10:00", some "18:00", some "Cook", some 2, none,
          some "2024-01-01 08:15:00"⟩]) ∧
    (∃ rows, listShifts sampleStore ⟨some "", some .empty⟩ =
        (sampleStore, ⟨200, .shifts rows⟩) ∧
      (rows.map ShiftRow.shift).Perm sampleStore.shifts) := by
  refine ⟨by decide, ?_, ?_, ?_⟩
  · obtain ⟨rows, h1, h2, _, _⟩ :=
      listShifts_filter_precedence sampleStore ⟨some "2024-01-01", some (.integer 2)⟩
        (by decide)
    exact ⟨rows, h1, h2 "2024-01-01" rfl (by decide)⟩
  · obtain ⟨rows, h1, _, h3, _⟩ :=
      listShifts_filter_precedence sampleStore ⟨some "", some (.integer 2)⟩ (by decide)
    exact ⟨rows, h1, h3 (Or.inr rfl) 2 rfl⟩
  · obtain ⟨rows, h1, _, _, h4⟩ :=
      listShifts_filter_precedence sampleStore ⟨some "", some .empty⟩ (by decide)
    exact ⟨rows, h1, h4 (Or.inr rfl) (Or.inr rfl)⟩

/-- Instance of C2 on the sample database. -/
theorem listShifts_complete_and_sorted_witness :
    sampleStore.PrimaryKeys ∧
    ∃ rows, listShifts sampleStore ⟨none, none⟩ = (sampleStore, ⟨200, .shifts rows⟩) ∧
      (rows.map ShiftRow.shift).Perm sampleStore.shifts ∧
      rows.Pairwise (fun a b =>
        sqlLt a.shift.date b.shift.date = true ∨
          (a.shift.date = b.shift.date ∧
            sqlLe a.shift.start_time b.shift.start_time = true)) :=
  ⟨by decide, listShifts_complete_and_sorted sampleStore (by decide)⟩

/-- Instance of C3: an empty `name` and an empty `date` are rejected with 400 and
nothing is stored. -/
theorem create_rejects_witness :
    (createEmployee Store.empty (some "") (some "Manager") none none "t").2.status = 400 ∧
    (createEmployee Store.empty (some "") (some "Manager") none none "t").1 = Store.empty ∧
    (createShift Store.empty (some "") (some "09:00") (some "17:00") (some "Cook") none none
      "t").2.status = 400 ∧
    (createShift Store.empty (some "") (some "09:00") (some "17:00") (some "Cook") none none
      "t").1 = Store.empty := by
  have h := create_rejects_exactly_missing_required Store.empty (some "") (some "Manager")
    none none (some "") (some "09:00") (some "17:00") (some "Cook") none none "t"
  have he := h.1.2 (Or.inl (Or.inr rfl))
  have hs := h.2.1.2 (Or.inl (Or.inr rfl))
  exact ⟨he, h.2.2.1 he, hs, h.2.2.2 hs⟩

/-- Instance of C4: id 999999 is missing from the sample database, id 1 is not. -/
theorem not_found_witness :
    (getEmployee sampleStore 999999 = (sampleStore, ⟨404, .error "Employee not found"⟩) ∧
      updateEmployee sampleStore 999999 (some "Eve") (some "Cook") none none =
        (sampleStore, ⟨404, .error "Employee not found"⟩) ∧
      deleteEmployee sampleStore 999999 =
        (sampleStore, ⟨404, .error "Employee not found"⟩)) ∧
    (getShift sampleStore 999999 = (sampleStore, ⟨404, .error "Shift not found"⟩) ∧
      updateShift sampleStore 999999 (some "2024-02-01") (some "08:00") (some "12:00")
        (some "Cook") none none = (sampleStore, ⟨404, .error "Shift not found"⟩) ∧
      deleteShift sampleStore 999999 = (sampleStore, ⟨404, .error "Shift not found"⟩)) ∧
    ((getEmployee sampleStore 1).2.status ≠ 404 ∧
      (updateEmployee sampleStore 1 (some "Eve") (some "Cook") none none).2.status ≠ 404 ∧
      (deleteEmployee sampleStore 1).2.status ≠ 404) :=
  ⟨(not_found_exactly_on_missing_id sampleStore 999999 (some "Eve") (some "Cook") none none
      (some "2024-02-01") (some "08:00") (some "12:00") (some "Cook") none none).1
      (by decide),
   (not_found_exactly_on_missing_id sampleStore 999999 (some "Eve") (some "Cook") none none
      (some "2024-02-01") (some "08:00") (some "12:00") (some "Cook") none none).2.1
      (by decide),
   (not_found_exactly_on_missing_id sampleStore 1 (some "Eve") (some "Cook") none none
      (some "2024-02-01") (some "08:00") (some "12:00") (some "Cook") none none).2.2.1
      (by decide)⟩

/-- Instance of C5: an employee created without email and phone reads back with both
null. -/
theorem create_then_get_employee_witness :
    ("Eve" : String) ≠ "" ∧ ("Cook" : String) ≠ "" ∧
    ∃ id row,
      (createEmployee sampleStore (some "Eve") (some "Cook") none none "t").2 =
        ⟨200, .employeeFields id (some "Eve") (some "Cook") none none⟩ ∧
      getEmployee (createEmployee sampleStore (some "Eve") (some "Cook") none none "t").1 id =
        ((createEmployee sampleStore (some "Eve") (some "Cook") none none "t").1,
          ⟨200, .employee row⟩) ∧
      row.id = id ∧ row.name = some "Eve" ∧ row.role = some "Cook" ∧ row.email = none ∧
        row.phone = none :=
  ⟨by decide, by decide,
    create_then_get_employee sampleStore "Eve" "Cook" none none "t" (by decide) (by decide)⟩

/-- Instance of C7: deleting employee 1 of the sample database leaves shift 1
assigned to it. -/
theorem delete_employee_leaves_shifts_witness :
    (deleteEmployee sampleStore 1).2 = ⟨200, .deleted "Employee deleted" 1⟩ ∧
    (deleteEmployee sampleStore 1).1.shifts = sampleStore.shifts ∧
    getShift (deleteEmployee sampleStore 1).1 1 =
      ((deleteEmployee sampleStore 1).1,
        ⟨200, .shift ⟨⟨1, some "2024-01-01", some "09:00", some "17:00", some "Manager",
          some 1, none, some "2024-01-01 08:10:00"⟩, none⟩⟩) :=
  have h := delete_employee_leaves_shifts sampleStore 1
    ⟨1, some "2024-01-01", some "09:00", some "17:00", some "Manager", some 1, none,
      some "2024-01-01 08:10:00"⟩ (by decide) (by decide) (by decide) (by decide)
  ⟨h.1, h.2.1, h.2.2.1⟩

/-- Instance of C8: deleting employee 2 and shift 2 of the sample database twice. -/
theorem delete_twice_witness :
    ((deleteEmployee sampleStore 2).2 = ⟨200, .deleted "Employee deleted" 2⟩ ∧
      deleteEmployee (deleteEmployee sampleStore 2).1 2 =
        ((deleteEmployee sampleStore 2).1, ⟨404, .error "Employee not found"⟩)) ∧
    ((deleteShift sampleStore 2).2 = ⟨200, .deleted "Shift deleted" 2⟩ ∧
      deleteShift (deleteShift sampleStore 2).1 2 =
        ((deleteShift sampleStore 2).1, ⟨404, .error "Shift not found"⟩)) :=
  have he := (delete_twice_succeeds_then_not_found sampleStore 2 (by decide)).1 (by decide)
  have hs := (delete_twice_succeeds_then_not_found sampleStore 2 (by decide)).2 (by decide)
  ⟨⟨he.1, he.2.2.2.2.2⟩, ⟨hs.1, hs.2.2.2.2.2⟩⟩

/-- C9 fails as stated: `updateShift` of the existing shift 1 with an absent `date` is
answered 500 and the shift keeps its values. -/
theorem updateShift_absent_date_rejected :
    (∃ s ∈ sampleStore.shifts, s.id = 1) ∧
    updateShift sampleStore 1 none (some "09:00") (some "17:00") (some "Cook") none none =
      (sampleStore,
        ⟨500, .error "SQLITE_CONSTRAINT: NOT NULL constraint failed: shifts.date"⟩) ∧
    (updateShift sampleStore 1 none (some "09:00") (some "17:00") (some "Cook") none
      none).2.status ≠ 200 := by
  decide

/-- Instance of C9: shift 1 of the sample database takes an empty `date`. -/
theorem updateShift_writes_given_values_witness :
    (∃ s ∈ sampleStore.shifts, s.id = 1) ∧
    (updateShift sampleStore 1 (some "") (some "09:00") (some "17:00") (some "Cook") none
        none).2 =
      ⟨200, .shiftFields 1 (some "") (some "09:00") (some "17:00") (some "Cook") none none⟩ ∧
    (∃ s ∈ (updateShift sampleStore 1 (some "") (some "09:00") (some "17:00") (some "Cook")
        none none).1.shifts, s.id = 1) :=
  have h := (updateShift_writes_given_values sampleStore 1 (some "") (some "09:00")
    (some "17:00") (some "Cook") none none (by decide)).1 (by decide)
  ⟨by decide, h.1, h.2.1⟩

/-- C10 fails as stated: after `createEmployee` and an `updateEmployee` carrying empty
texts, both answered 200, the stored employee has an empty `name` and `role`. -/
theorem update_stores_empty_required :
    run Store.empty
        [.createEmployee (some "Ann") (some "Manager") none none "2024-01-01 08:00:00",
         .updateEmployee 1 (some "") (some "") none none] =
      (⟨[⟨1, some "", some "", none, none, some "2024-01-01 08:00:00"⟩], [], 1, 0⟩,
       [(.createEmployee (some "Ann") (some "Manager") none none "2024-01-01 08:00:00",
          ⟨200, .employeeFields 1 (some "Ann") (some "Manager") none none⟩),
        (.updateEmployee 1 (some "") (some "") none none,
          ⟨200, .employeeFields 1 (some "") (some "") none none⟩)]) := by
  decide

/-- Instance of C10: a create followed by an update with non-empty texts. -/
theorem required_columns_present_witness :
    (run Store.empty
      [.createEmployee (some "Ann") (some "Manager") none none "t",
       .updateEmployee 1 (some "Eve") (some "Cook") none none]).1.RequiredPresent ∧
    (run Store.empty
      [.createEmployee (some "Ann") (some "Manager") none none "t",
       .updateEmployee 1 (some "Eve") (some "Cook") none none]).1.RequiredNonEmpty :=
  have h := required_columns_present
    [.createEmployee (some "Ann") (some "Manager") none none "t",
     .updateEmployee 1 (some "Eve") (some "Cook") none none]
  ⟨h.1, h.2 (by decide)⟩

end ShiftManagement
